import Mathlib

/-!
Verification of the Fornjot B-Rep kernel core: object model, handle identity,
validation of half-edges, transform-with-cache, partial-object snapshot/build,
and the triangle mesh.

Numeric scalars (`fj_math::Scalar`) are modelled as rationals; the algorithms
under verification are generic over an ordered field and never rely on
floating-point rounding.
-/

namespace Fornjot

/-- Scalar values of `fj_math`, modelled as rationals. -/
abbrev Scalar := ℚ

/-- A point in 1D (curve parameter) space. -/
abbrev Point1 := ℚ

/-- A point in 2D (surface parameter) space. -/
abbrev Point2 := ℚ × ℚ

/-- A point in 3D model space. -/
abbrev Point3 := ℚ × ℚ × ℚ

/-- An identity-bearing, shared reference to a stored object: an identity
token plus the referenced content.  Mirrors `storage::Handle`.  In the code a
handle points at the store's canonical content; here the content is carried
alongside the identity. -/
structure Handle (α : Type) where
  id : Nat
  value : α
  deriving DecidableEq, Repr

/-- Handle equality as the code defines it (`PartialEq for Handle`): two
handles are equal iff their identities match, regardless of content. -/
def Handle.eqId {α : Type} (h1 h2 : Handle α) : Bool :=
  h1.id == h2.id

/-- External geometric carrier for curves; its internal geometry is out of
scope, only its identity matters for the claims. -/
abbrev Curve := Unit

/-- External geometric carrier for surfaces; out of scope. -/
abbrev Surface := Unit

/-- A vertex, defined in global (3D) coordinates.
Mirrors `objects/full/vertex.rs`. -/
structure GlobalVertex where
  position : Point3
  deriving DecidableEq, Repr

/-- Construct a `GlobalVertex` from a position (`GlobalVertex::new`). -/
def GlobalVertex.new (position : Point3) : GlobalVertex :=
  { position }

/-- A vertex, defined in surface (2D) coordinates, paired with its global
form.  Mirrors `objects/full/vertex.rs`. -/
structure SurfaceVertex where
  position : Point2
  global_form : Handle GlobalVertex
  deriving DecidableEq, Repr

/-- Construct a new instance of `SurfaceVertex` (`SurfaceVertex::new`). -/
def SurfaceVertex.new (position : Point2) (global_form : Handle GlobalVertex) :
    SurfaceVertex :=
  { position, global_form }

/-- Modelled from the spec: `GlobalEdge` (its full-object definition is not
among the provided sources) carries exactly two `GlobalVertex` handles, its
endpoints, unordered in storage. -/
structure GlobalEdge where
  vertices : Handle GlobalVertex × Handle GlobalVertex
  deriving DecidableEq, Repr

/-- Modelled from the spec: `access_in_normalized_order` returns the two
vertices in a canonical order, used for comparisons; normalization is by
identity. -/
def GlobalEdge.accessInNormalizedOrder (ge : GlobalEdge) :
    Handle GlobalVertex × Handle GlobalVertex :=
  if ge.vertices.1.id ≤ ge.vertices.2.id then ge.vertices
  else (ge.vertices.2, ge.vertices.1)

/-- Modelled from the spec: a `HalfEdge` (full-object definition not among the
provided sources) holds a curve reference, a 1D-parameter-space boundary,
two `SurfaceVertex` handles (start/end) and one `GlobalEdge` handle. -/
structure HalfEdge where
  curve : Handle Curve
  boundary : Point1 × Point1
  surface_vertices : Handle SurfaceVertex × Handle SurfaceVertex
  global_form : Handle GlobalEdge
  deriving DecidableEq, Repr

/-- `HalfEdge::new`. -/
def HalfEdge.new (curve : Handle Curve) (boundary : Point1 × Point1)
    (surface_vertices : Handle SurfaceVertex × Handle SurfaceVertex)
    (global_form : Handle GlobalEdge) : HalfEdge :=
  { curve, boundary, surface_vertices, global_form }

/-- `HalfEdge::start_vertex`: the first of the two surface vertices. -/
def HalfEdge.start_vertex (he : HalfEdge) : Handle SurfaceVertex :=
  he.surface_vertices.1

/-- A cycle: an ordered sequence of half-edges.  Mirrors `objects::Cycle` as
used by `partial/objects/cycle.rs` (`Cycle::new` collects an iterator of
half-edge handles). -/
structure Cycle where
  half_edges : List (Handle HalfEdge)
  deriving DecidableEq, Repr

/-- `Cycle::new`. -/
def Cycle.new (half_edges : List (Handle HalfEdge)) : Cycle :=
  { half_edges }

/-- Modelled from the spec: the validation config carries the configured
minimum distance between distinct vertices (`distinct_min_distance`), the
single numeric tolerance the core recognizes. -/
structure ValidationConfig where
  distinct_min_distance : Scalar
  deriving DecidableEq, Repr

/-- `HalfEdge` validation failure, mirroring `HalfEdgeValidationError` in
`validate/edge.rs` (the aggregated `ValidationError` list stores these). -/
inductive ValidationError where
  | globalVertexMismatch
      (global_vertex_from_half_edge : Handle GlobalVertex)
      (global_vertices_from_global_form :
        Handle GlobalVertex × Handle GlobalVertex)
      (half_edge : HalfEdge)
  | surfaceMismatch
      (curve_surface : Handle Surface)
      (surface_form_surface : Handle Surface)
  | verticesAreCoincident
      (back_position : Point1)
      (front_position : Point1)
      (distance : Scalar)
      (half_edge : HalfEdge)
  deriving DecidableEq, Repr

/-- Whether an error is the vertices-coincident (degenerate edge) case. -/
def ValidationError.isCoincidence : ValidationError → Bool
  | .verticesAreCoincident _ _ _ _ => true
  | _ => false

/-- Whether an error is the global-vertex-mismatch case. -/
def ValidationError.isGlobalVertexMismatch : ValidationError → Bool
  | .globalVertexMismatch _ _ _ => true
  | _ => false

/-- `HalfEdgeValidationError::check_global_vertex_identity`: push an error iff
the identity of the start vertex's global form matches neither of the two
global vertices referenced by the half-edge's global form.  The comparison is
`global_vertex.id() == global_vertex_from_half_edge.id()`: identity, not
value. -/
def checkGlobalVertexIdentity (half_edge : HalfEdge)
    (errors : List ValidationError) : List ValidationError :=
  let global_vertex_from_half_edge :=
    half_edge.start_vertex.value.global_form
  let global_vertices_from_global_form :=
    half_edge.global_form.value.accessInNormalizedOrder
  let matching :=
    global_vertices_from_global_form.1.id == global_vertex_from_half_edge.id
      || global_vertices_from_global_form.2.id
          == global_vertex_from_half_edge.id
  if matching then errors
  else
    errors ++ [.globalVertexMismatch global_vertex_from_half_edge
      global_vertices_from_global_form half_edge]

/-- `HalfEdgeValidationError::check_vertex_coincidence`: push an error iff the
distance between the two boundary positions on the curve is below the
configured minimum distance. -/
def checkVertexCoincidence (half_edge : HalfEdge) (config : ValidationConfig)
    (errors : List ValidationError) : List ValidationError :=
  let back_position := half_edge.boundary.1
  let front_position := half_edge.boundary.2
  let distance := |back_position - front_position|
  if distance < config.distinct_min_distance then
    errors ++ [.verticesAreCoincident back_position front_position distance
      half_edge]
  else errors

/-- `impl Validate for HalfEdge`: run both checks, in source order, each
appending its failures to the shared error list. -/
def HalfEdge.validateWithConfig (he : HalfEdge) (config : ValidationConfig)
    (errors : List ValidationError) : List ValidationError :=
  checkVertexCoincidence he config (checkGlobalVertexIdentity he errors)

/-- Validation entry point: run `validate_with_config` on a fresh error
list. -/
def HalfEdge.validate (he : HalfEdge) (config : ValidationConfig) :
    List ValidationError :=
  he.validateWithConfig config []

/-- `impl Validate for GlobalEdge`: the body is empty, no check runs. -/
def GlobalEdge.validateWithConfig (_ge : GlobalEdge)
    (_config : ValidationConfig) (errors : List ValidationError) :
    List ValidationError :=
  errors

/-- Validation entry point for `GlobalEdge`. -/
def GlobalEdge.validate (ge : GlobalEdge) (config : ValidationConfig) :
    List ValidationError :=
  ge.validateWithConfig config []

/-- The distance between the two boundary positions of a half-edge on its
curve, as `check_vertex_coincidence` computes it. -/
def HalfEdge.boundaryDistance (he : HalfEdge) : Scalar :=
  |he.boundary.1 - he.boundary.2|

/-- `checkGlobalVertexIdentity` leaves the error list unchanged or appends
exactly the mismatch error, depending only on the identity comparison against
the half-edge's global form's two vertices (in either order). -/
lemma checkGlobalVertexIdentity_any (he : HalfEdge)
    (errors : List ValidationError) :
    (checkGlobalVertexIdentity he errors).any
        ValidationError.isGlobalVertexMismatch
      = (errors.any ValidationError.isGlobalVertexMismatch
          || !(he.global_form.value.vertices.1.id
                == he.start_vertex.value.global_form.id
              || he.global_form.value.vertices.2.id
                == he.start_vertex.value.global_form.id)) := by
  unfold checkGlobalVertexIdentity GlobalEdge.accessInNormalizedOrder
  by_cases hord : he.global_form.value.vertices.1.id
      ≤ he.global_form.value.vertices.2.id <;>
    simp only [hord, if_true, if_false, reduceIte] <;>
    by_cases h1 : he.global_form.value.vertices.1.id
        = he.start_vertex.value.global_form.id <;>
      by_cases h2 : he.global_form.value.vertices.2.id
          = he.start_vertex.value.global_form.id <;>
        simp [h1, h2, ValidationError.isGlobalVertexMismatch]

/-- `checkVertexCoincidence` appends the coincidence error exactly when the
boundary distance is below the configured minimum. -/
lemma checkVertexCoincidence_any (he : HalfEdge) (config : ValidationConfig)
    (errors : List ValidationError) :
    (checkVertexCoincidence he config errors).any
        ValidationError.isCoincidence
      = (errors.any ValidationError.isCoincidence
          || decide (he.boundaryDistance < config.distinct_min_distance)) := by
  unfold checkVertexCoincidence HalfEdge.boundaryDistance
  by_cases h : |he.boundary.1 - he.boundary.2| < config.distinct_min_distance <;>
    simp [h, ValidationError.isCoincidence]

/-- `checkGlobalVertexIdentity` never produces a coincidence error. -/
lemma checkGlobalVertexIdentity_any_coincidence (he : HalfEdge)
    (errors : List ValidationError) :
    (checkGlobalVertexIdentity he errors).any ValidationError.isCoincidence
      = errors.any ValidationError.isCoincidence := by
  unfold checkGlobalVertexIdentity
  by_cases h : (he.global_form.value.accessInNormalizedOrder.1.id
        == he.start_vertex.value.global_form.id
      || he.global_form.value.accessInNormalizedOrder.2.id
        == he.start_vertex.value.global_form.id) = true <;>
    simp_all [ValidationError.isCoincidence]

/-- `checkVertexCoincidence` never produces a mismatch error. -/
lemma checkVertexCoincidence_any_mismatch (he : HalfEdge)
    (config : ValidationConfig) (errors : List ValidationError) :
    (checkVertexCoincidence he config errors).any
        ValidationError.isGlobalVertexMismatch
      = errors.any ValidationError.isGlobalVertexMismatch := by
  unfold checkVertexCoincidence
  by_cases h : |he.boundary.1 - he.boundary.2|
      < config.distinct_min_distance <;>
    simp [h, ValidationError.isGlobalVertexMismatch]

/-- Validation of a half-edge reports a coincidence error exactly when the
boundary distance is below the tolerance. -/
lemma validate_any_coincidence (he : HalfEdge) (config : ValidationConfig) :
    (he.validate config).any ValidationError.isCoincidence
      = decide (he.boundaryDistance < config.distinct_min_distance) := by
  unfold HalfEdge.validate HalfEdge.validateWithConfig
  rw [checkVertexCoincidence_any, checkGlobalVertexIdentity_any_coincidence]
  simp

/-- Validation of a half-edge reports a mismatch error exactly when the start
vertex's global-form identity matches neither vertex of the global edge. -/
lemma validate_any_mismatch (he : HalfEdge) (config : ValidationConfig) :
    (he.validate config).any ValidationError.isGlobalVertexMismatch
      = !(he.global_form.value.vertices.1.id
            == he.start_vertex.value.global_form.id
          || he.global_form.value.vertices.2.id
            == he.start_vertex.value.global_form.id) := by
  unfold HalfEdge.validate HalfEdge.validateWithConfig
  rw [checkVertexCoincidence_any_mismatch, checkGlobalVertexIdentity_any]
  simp

/-- C1: validating a half-edge whose two boundary-parameter positions lie at
distance ε apart under a config with minimum distance t reports a
vertices-coincident (degenerate edge) error iff ε < t, and reports no such
error iff ε ≥ t. -/
theorem halfEdge_coincidence_error_iff (he : HalfEdge)
    (config : ValidationConfig) :
    ((∃ e ∈ he.validate config, e.isCoincidence = true)
        ↔ he.boundaryDistance < config.distinct_min_distance)
      ∧ ((∀ e ∈ he.validate config, e.isCoincidence = false)
        ↔ config.distinct_min_distance ≤ he.boundaryDistance) := by
  have h := validate_any_coincidence he config
  constructor
  · constructor
    · intro ⟨e, he', hc⟩
      have : (he.validate config).any ValidationError.isCoincidence = true :=
        List.any_eq_true.mpr ⟨e, he', hc⟩
      rw [h] at this
      exact of_decide_eq_true this
    · intro hlt
      have : (he.validate config).any ValidationError.isCoincidence = true := by
        rw [h]; exact decide_eq_true hlt
      exact List.any_eq_true.mp this
  · constructor
    · intro hall
      by_contra hnot
      push_neg at hnot
      have : (he.validate config).any ValidationError.isCoincidence = true := by
        rw [h]; exact decide_eq_true hnot
      obtain ⟨e, he', hc⟩ := List.any_eq_true.mp this
      exact absurd (hall e he') (by simp [hc])
    · intro hge e he'
      by_contra hc
      have hc' : e.isCoincidence = true := by
        cases hb : e.isCoincidence
        · exact absurd hb hc
        · rfl
      have : (he.validate config).any ValidationError.isCoincidence = true :=
        List.any_eq_true.mpr ⟨e, he', hc'⟩
      rw [h] at this
      exact absurd hge (not_le.mpr (of_decide_eq_true this))

/-- C2: validating a half-edge reports a global-vertex-mismatch error iff the
identity of its start vertex's global form matches neither of the two global
vertex identities of its global edge; values play no role, only identities. -/
theorem halfEdge_global_vertex_mismatch_iff (he : HalfEdge)
    (config : ValidationConfig) :
    (∃ e ∈ he.validate config, e.isGlobalVertexMismatch = true)
      ↔ (he.start_vertex.value.global_form.id
            ≠ he.global_form.value.vertices.1.id
          ∧ he.start_vertex.value.global_form.id
            ≠ he.global_form.value.vertices.2.id) := by
  have h := validate_any_mismatch he config
  constructor
  · intro ⟨e, he', hc⟩
    have : (he.validate config).any ValidationError.isGlobalVertexMismatch
        = true := List.any_eq_true.mpr ⟨e, he', hc⟩
    rw [h] at this
    simp only [Bool.not_eq_true', Bool.or_eq_false_iff, beq_eq_false_iff_ne,
      ne_eq] at this
    exact ⟨fun hc1 => this.1 hc1.symm, fun hc2 => this.2 hc2.symm⟩
  · intro ⟨h1, h2⟩
    refine List.any_eq_true.mp ?_
    rw [h]
    simp only [Bool.not_eq_true', Bool.or_eq_false_iff, beq_eq_false_iff_ne,
      ne_eq]
    exact ⟨fun hc => h1 hc.symm, fun hc => h2 hc.symm⟩

/-- C3: validation runs every check and aggregates all failures: a half-edge
violating both the global-vertex-identity check and the vertex-coincidence
check has both errors present in the list after one validation call. -/
theorem halfEdge_validation_collects_all (he : HalfEdge)
    (config : ValidationConfig)
    (hmis : he.start_vertex.value.global_form.id
        ≠ he.global_form.value.vertices.1.id
      ∧ he.start_vertex.value.global_form.id
        ≠ he.global_form.value.vertices.2.id)
    (hcoin : he.boundaryDistance < config.distinct_min_distance) :
    (∃ e ∈ he.validate config, e.isGlobalVertexMismatch = true)
      ∧ (∃ e ∈ he.validate config, e.isCoincidence = true) := by
  constructor
  · refine List.any_eq_true.mp ?_
    rw [validate_any_mismatch he config]
    simp only [Bool.not_eq_true', Bool.or_eq_false_iff, beq_eq_false_iff_ne,
      ne_eq]
    exact ⟨fun hc => hmis.1 hc.symm, fun hc => hmis.2 hc.symm⟩
  · refine List.any_eq_true.mp ?_
    rw [validate_any_coincidence he config]
    exact decide_eq_true hcoin

/-- A half-edge violating both checks at once, for the C3 witness: boundary
positions coincide and the start vertex's global form (id 99) is neither
vertex of the global edge (ids 0 and 1). -/
def doublyInvalidHalfEdge : HalfEdge :=
  let gv0 : Handle GlobalVertex := ⟨0, GlobalVertex.new (0, 0, 0)⟩
  let gv1 : Handle GlobalVertex := ⟨1, GlobalVertex.new (1, 0, 0)⟩
  let gvFresh : Handle GlobalVertex := ⟨99, GlobalVertex.new (0, 0, 0)⟩
  HalfEdge.new ⟨0, ()⟩ (0, 0)
    (⟨0, SurfaceVertex.new (0, 0) gvFresh⟩, ⟨1, SurfaceVertex.new (1, 0) gv1⟩)
    ⟨0, { vertices := (gv0, gv1) }⟩

/-- Witness for C3 at a concrete doubly-invalid half-edge and tolerance 1. -/
theorem halfEdge_validation_collects_all_witness :
    (∃ e ∈ doublyInvalidHalfEdge.validate ⟨1⟩,
        e.isGlobalVertexMismatch = true)
      ∧ (∃ e ∈ doublyInvalidHalfEdge.validate ⟨1⟩, e.isCoincidence = true) :=
  halfEdge_validation_collects_all doublyInvalidHalfEdge ⟨1⟩
    (by decide) (by norm_num [doublyInvalidHalfEdge, HalfEdge.boundaryDistance,
      HalfEdge.new])

/-- C10: `GlobalEdge` validation never reports any error: the check body is
empty, so the entry point returns the empty list and the aggregating form
returns its input unchanged. -/
theorem globalEdge_validation_empty (ge : GlobalEdge)
    (config : ValidationConfig) (errors : List ValidationError) :
    ge.validate config = [] ∧ ge.validateWithConfig config errors = errors :=
  ⟨rfl, rfl⟩

/-! ## Object store and insertion -/

/-- Modelled from the spec: a typed repository per object kind.  `next` is the
monotonically increasing identity counter; `contents` binds identities to
their content (append-only). -/
structure Store (α : Type) where
  next : Nat
  contents : List (Nat × α)
  deriving DecidableEq, Repr

/-- The empty store. -/
def Store.empty {α : Type} : Store α :=
  { next := 0, contents := [] }

/-- Modelled from the spec: `reserve()` allocates a fresh identity with no
content yet bound. -/
def Store.reserve {α : Type} (s : Store α) : Nat × Store α :=
  (s.next, { s with next := s.next + 1 })

/-- Modelled from the spec: `insert(handle, content)` binds content to a
previously reserved identity. -/
def Store.insertContent {α : Type} (s : Store α) (id : Nat) (v : α) :
    Store α :=
  { s with contents := (id, v) :: s.contents }

/-- `Insert::insert` as generated by `impl_insert!`: reserve a fresh identity
in the object's store, bind the content to it, return the handle. -/
def insertObject {α : Type} (v : α) (s : Store α) : Handle α × Store α :=
  let r := s.reserve
  (⟨r.1, v⟩, r.2.insertContent r.1 v)

/-- A store is well formed when every bound identity is below the counter
(so a freshly reserved identity is never a reuse). -/
def Store.wf {α : Type} (s : Store α) : Prop :=
  ∀ p ∈ s.contents, p.1 < s.next

/-- C6: inserting two objects independently (even with identical field
values) yields handles whose identities differ, so they compare unequal; the
fresh identity differs from every identity already bound; insertion preserves
well-formedness; and a handle to the same committed object reached through a
different path (here: embedded in a parent object) compares equal to the
original. -/
theorem insert_distinct_identities {α : Type} (a b : α) (s : Store α)
    (hwf : s.wf) (p2 : Point2) (hgv : Handle GlobalVertex) :
    ((insertObject a s).1.eqId
        ((insertObject b (insertObject a s).2).1) = false)
      ∧ (∀ q ∈ s.contents, (insertObject a s).1.id ≠ q.1)
      ∧ (insertObject a s).2.wf
      ∧ (SurfaceVertex.new p2 hgv).global_form.eqId hgv = true := by
  refine ⟨?_, ?_, ?_, ?_⟩
  · simp [insertObject, Store.reserve, Store.insertContent, Handle.eqId]
  · intro q hq
    have := hwf q hq
    simp only [insertObject, Store.reserve]
    omega
  · intro q hq
    simp only [insertObject, Store.reserve, Store.insertContent,
      List.mem_cons] at hq ⊢
    rcases hq with rfl | hq
    · omega
    · have := hwf q hq
      omega
  · simp [SurfaceVertex.new, Handle.eqId]

/-- Witness for C6: two value-equal global vertices inserted into the empty
store get distinct handles; the embedded-handle path compares equal. -/
theorem insert_distinct_identities_witness :
    ((insertObject (GlobalVertex.new (0, 0, 0)) (Store.empty)).1.eqId
        ((insertObject (GlobalVertex.new (0, 0, 0))
          (insertObject (GlobalVertex.new (0, 0, 0)) (Store.empty)).2).1)
        = false)
      ∧ (∀ q ∈ (Store.empty : Store GlobalVertex).contents,
          (insertObject (GlobalVertex.new (0, 0, 0)) (Store.empty)).1.id
            ≠ q.1)
      ∧ (insertObject (GlobalVertex.new (0, 0, 0)) (Store.empty)).2.wf
      ∧ (SurfaceVertex.new (0, 0)
            ⟨5, GlobalVertex.new (1, 1, 1)⟩).global_form.eqId
          ⟨5, GlobalVertex.new (1, 1, 1)⟩ = true :=
  insert_distinct_identities (GlobalVertex.new (0, 0, 0))
    (GlobalVertex.new (0, 0, 0)) Store.empty
    (by intro p hp; simp [Store.empty] at hp) (0, 0)
    ⟨5, GlobalVertex.new (1, 1, 1)⟩

/-! ## Transform with cache -/

/-- A rigid motion, abstracted to its action on points
(`fj_math::Transform::transform_point`). -/
structure Transform where
  map : Point3 → Point3

/-- Apply the motion to a point. -/
def Transform.transform_point (t : Transform) (p : Point3) : Point3 :=
  t.map p

/-- The per-type object stores (`objects::Objects`), as far as the claims
reach. -/
structure Objects where
  curves : Store Curve
  global_vertices : Store GlobalVertex
  surface_vertices : Store SurfaceVertex
  global_edges : Store GlobalEdge
  half_edges : Store HalfEdge

/-- All stores empty. -/
def Objects.empty : Objects :=
  ⟨Store.empty, Store.empty, Store.empty, Store.empty, Store.empty⟩

/-- Association-list lookup by identity. -/
def lookupId {α : Type} (k : Nat) : List (Nat × α) → Option α
  | [] => none
  | (k', v) :: rest => if k = k' then some v else lookupId k rest

lemma lookupId_cons {α : Type} (k k₀ : Nat) (v₀ : α) (l : List (Nat × α)) :
    lookupId k ((k₀, v₀) :: l)
      = if k = k₀ then some v₀ else lookupId k l := rfl

/-- Consing a binding for a key that was absent preserves every lookup that
succeeded before. -/
lemma lookupId_cons_preserve {α : Type} {k₀ : Nat} {v₀ : α}
    {l : List (Nat × α)} (hnone : lookupId k₀ l = none)
    {k : Nat} {v : α} (h : lookupId k l = some v) :
    lookupId k ((k₀, v₀) :: l) = some v := by
  rw [lookupId_cons]
  by_cases hk : k = k₀
  · subst hk; rw [h] at hnone; cases hnone
  · simp [hk, h]

/-- Modelled from the spec: the transform cache maps each visited source
identity to its already-computed transformed handle, one map per object
kind. -/
structure TransformCache where
  curves : List (Nat × Handle Curve)
  global_vertices : List (Nat × Handle GlobalVertex)
  surface_vertices : List (Nat × Handle SurfaceVertex)
  global_edges : List (Nat × Handle GlobalEdge)
  half_edges : List (Nat × Handle HalfEdge)

/-- The empty cache, created per top-level transform operation. -/
def TransformCache.empty : TransformCache :=
  ⟨[], [], [], [], []⟩

/-- The state a transform threads: the object stores (transformed objects are
inserted) and the request-scoped cache. -/
structure TState where
  objects : Objects
  cache : TransformCache

/-- `impl TransformObject for GlobalVertex` (from
`algorithms/transform/vertex.rs`): the new position is the motion applied to
the old one; the store and cache parameters are unused at value level. -/
def GlobalVertex.transformWithCache (gv : GlobalVertex) (t : Transform) :
    GlobalVertex :=
  GlobalVertex.new (t.transform_point gv.position)

/-- Modelled from the spec: handle-level transform of a `GlobalVertex`: reuse
the cached transformed handle on repeat visits; otherwise transform the value,
insert it as a new object and record it in the cache. -/
def transformHandleGV (h : Handle GlobalVertex) (t : Transform) (s : TState) :
    Handle GlobalVertex × TState :=
  match lookupId h.id s.cache.global_vertices with
  | some cached => (cached, s)
  | none =>
    let transformed := h.value.transformWithCache t
    let r := insertObject transformed s.objects.global_vertices
    (r.1,
      { objects := { s.objects with global_vertices := r.2 },
        cache := { s.cache with
          global_vertices := (h.id, r.1) :: s.cache.global_vertices } })

/-- Value-level transform of a curve: its geometry is an external carrier
(out of scope), so the value passes through; identity handling happens at
handle level. -/
def Curve.transformWithCache (c : Curve) (_t : Transform) : Curve :=
  c

/-- Modelled from the spec: handle-level transform of a `Curve`. -/
def transformHandleCurve (h : Handle Curve) (t : Transform) (s : TState) :
    Handle Curve × TState :=
  match lookupId h.id s.cache.curves with
  | some cached => (cached, s)
  | none =>
    let transformed := h.value.transformWithCache t
    let r := insertObject transformed s.objects.curves
    (r.1,
      { objects := { s.objects with curves := r.2 },
        cache := { s.cache with
          curves := (h.id, r.1) :: s.cache.curves } })

/-- `impl TransformObject for SurfaceVertex` (from
`algorithms/transform/vertex.rs`): the 2D position is defined in surface
coordinates and is not transformed; only the global form is recursed into. -/
def SurfaceVertex.transformWithCache (sv : SurfaceVertex) (t : Transform)
    (s : TState) : SurfaceVertex × TState :=
  let position := sv.position
  let r := transformHandleGV sv.global_form t s
  (SurfaceVertex.new position r.1, r.2)

/-- Modelled from the spec: handle-level transform of a `SurfaceVertex`. -/
def transformHandleSV (h : Handle SurfaceVertex) (t : Transform)
    (s : TState) : Handle SurfaceVertex × TState :=
  match lookupId h.id s.cache.surface_vertices with
  | some cached => (cached, s)
  | none =>
    let r := h.value.transformWithCache t s
    let q := insertObject r.1 r.2.objects.surface_vertices
    (q.1,
      { objects := { r.2.objects with surface_vertices := q.2 },
        cache := { r.2.cache with
          surface_vertices := (h.id, q.1) :: r.2.cache.surface_vertices } })

/-- Modelled from the spec: value-level transform of a `GlobalEdge`: its two
vertex handles are transformed through the cache. -/
def GlobalEdge.transformWithCache (ge : GlobalEdge) (t : Transform)
    (s : TState) : GlobalEdge × TState :=
  let a := transformHandleGV ge.vertices.1 t s
  let b := transformHandleGV ge.vertices.2 t a.2
  ({ vertices := (a.1, b.1) }, b.2)

/-- Modelled from the spec: handle-level transform of a `GlobalEdge`. -/
def transformHandleGE (h : Handle GlobalEdge) (t : Transform) (s : TState) :
    Handle GlobalEdge × TState :=
  match lookupId h.id s.cache.global_edges with
  | some cached => (cached, s)
  | none =>
    let r := h.value.transformWithCache t s
    let q := insertObject r.1 r.2.objects.global_edges
    (q.1,
      { objects := { r.2.objects with global_edges := q.2 },
        cache := { r.2.cache with
          global_edges := (h.id, q.1) :: r.2.cache.global_edges } })

/-- Modelled from the spec: value-level transform of a `HalfEdge`: the curve
reference, surface vertices and global form are transformed through the
cache; the 1D boundary carries curve coordinates and passes through. -/
def HalfEdge.transformWithCache (he : HalfEdge) (t : Transform) (s : TState) :
    HalfEdge × TState :=
  let c := transformHandleCurve he.curve t s
  let boundary := he.boundary
  let v1 := transformHandleSV he.surface_vertices.1 t c.2
  let v2 := transformHandleSV he.surface_vertices.2 t v1.2
  let g := transformHandleGE he.global_form t v2.2
  (HalfEdge.new c.1 boundary (v1.1, v2.1) g.1, g.2)

/-- Modelled from the spec: handle-level transform of a `HalfEdge`. -/
def transformHandleHE (h : Handle HalfEdge) (t : Transform) (s : TState) :
    Handle HalfEdge × TState :=
  match lookupId h.id s.cache.half_edges with
  | some cached => (cached, s)
  | none =>
    let r := h.value.transformWithCache t s
    let q := insertObject r.1 r.2.objects.half_edges
    (q.1,
      { objects := { r.2.objects with half_edges := q.2 },
        cache := { r.2.cache with
          half_edges := (h.id, q.1) :: r.2.cache.half_edges } })

/-- Transform a list of half-edge handles left to right, threading the
state. -/
def transformHandleHEList (t : Transform) :
    List (Handle HalfEdge) → TState → List (Handle HalfEdge) × TState
  | [], s => ([], s)
  | h :: rest, s =>
    let r := transformHandleHE h t s
    let q := transformHandleHEList t rest r.2
    (r.1 :: q.1, q.2)

/-- Modelled from the spec: value-level transform of a `Cycle`: transform each
half-edge handle through the cache. -/
def Cycle.transformWithCache (c : Cycle) (t : Transform) (s : TState) :
    Cycle × TState :=
  let r := transformHandleHEList t c.half_edges s
  (Cycle.new r.1, r.2)

/-- Top-level transform of a cycle: the cache is request-scoped, created
fresh for the operation. -/
def Cycle.transformObject (c : Cycle) (t : Transform) (objects : Objects) :
    Cycle × TState :=
  c.transformWithCache t ⟨objects, TransformCache.empty⟩

/-- C7: transforming a `SurfaceVertex` leaves its 2D surface position
unchanged; only the global-form field is transformed (recursed into). -/
theorem surfaceVertex_transform_keeps_position (sv : SurfaceVertex)
    (t : Transform) (s : TState) :
    ((sv.transformWithCache t s).1.position = sv.position)
      ∧ ((sv.transformWithCache t s).1.global_form
          = (transformHandleGV sv.global_form t s).1)
      ∧ ((sv.transformWithCache t s).2
          = (transformHandleGV sv.global_form t s).2) :=
  ⟨rfl, rfl, rfl⟩

/-- C8: the transformed `GlobalVertex` has the position obtained by applying
the motion directly to the original position — at value level, and through
the handle level starting from the fresh (empty) request-scoped cache. -/
theorem globalVertex_transform_position (gv : GlobalVertex) (t : Transform)
    (h : Handle GlobalVertex) (objects : Objects) :
    ((gv.transformWithCache t).position = t.transform_point gv.position)
      ∧ ((transformHandleGV h t
            ⟨objects, TransformCache.empty⟩).1.value.position
          = t.transform_point h.value.position) :=
  ⟨rfl, rfl⟩

/-! ## Cache lemmas for the transform: monotonicity and coherence -/

/-- Every lookup that succeeds in the first cache succeeds, with the same
result, in the second: the transform only ever adds cache entries. -/
def cacheLe (c c' : TransformCache) : Prop :=
  (∀ k v, lookupId k c.curves = some v → lookupId k c'.curves = some v)
    ∧ (∀ k v, lookupId k c.global_vertices = some v
        → lookupId k c'.global_vertices = some v)
    ∧ (∀ k v, lookupId k c.surface_vertices = some v
        → lookupId k c'.surface_vertices = some v)
    ∧ (∀ k v, lookupId k c.global_edges = some v
        → lookupId k c'.global_edges = some v)
    ∧ (∀ k v, lookupId k c.half_edges = some v
        → lookupId k c'.half_edges = some v)

lemma cacheLe_refl (c : TransformCache) : cacheLe c c :=
  ⟨fun _ _ h => h, fun _ _ h => h, fun _ _ h => h, fun _ _ h => h,
    fun _ _ h => h⟩

lemma cacheLe_trans {a b c : TransformCache} (h1 : cacheLe a b)
    (h2 : cacheLe b c) : cacheLe a c :=
  ⟨fun k v h => h2.1 k v (h1.1 k v h),
    fun k v h => h2.2.1 k v (h1.2.1 k v h),
    fun k v h => h2.2.2.1 k v (h1.2.2.1 k v h),
    fun k v h => h2.2.2.2.1 k v (h1.2.2.2.1 k v h),
    fun k v h => h2.2.2.2.2 k v (h1.2.2.2.2 k v h)⟩

/-- Transforming a global-vertex handle touches only the global-vertex cache
submap. -/
lemma transformHandleGV_preserves (h : Handle GlobalVertex) (t : Transform)
    (s : TState) :
    ((transformHandleGV h t s).2.cache.curves = s.cache.curves)
      ∧ ((transformHandleGV h t s).2.cache.surface_vertices
          = s.cache.surface_vertices)
      ∧ ((transformHandleGV h t s).2.cache.global_edges
          = s.cache.global_edges)
      ∧ ((transformHandleGV h t s).2.cache.half_edges
          = s.cache.half_edges) := by
  unfold transformHandleGV
  split <;> exact ⟨rfl, rfl, rfl, rfl⟩

lemma transformHandleGV_mono (h : Handle GlobalVertex) (t : Transform)
    (s : TState) : cacheLe s.cache (transformHandleGV h t s).2.cache := by
  unfold transformHandleGV
  split
  · exact cacheLe_refl _
  · rename_i heq
    exact ⟨fun _ _ hk => hk, fun _ _ hk => lookupId_cons_preserve heq hk,
      fun _ _ hk => hk, fun _ _ hk => hk, fun _ _ hk => hk⟩

/-- Transforming a global-vertex handle records the result under the source
identity. -/
lemma transformHandleGV_lookup (h : Handle GlobalVertex) (t : Transform)
    (s : TState) :
    lookupId h.id (transformHandleGV h t s).2.cache.global_vertices
      = some (transformHandleGV h t s).1 := by
  unfold transformHandleGV
  split
  · rename_i cached heq; exact heq
  · simp [lookupId_cons]

/-- Transforming a curve handle touches only the curve cache submap. -/
lemma transformHandleCurve_preserves (h : Handle Curve) (t : Transform)
    (s : TState) :
    ((transformHandleCurve h t s).2.cache.global_vertices
        = s.cache.global_vertices)
      ∧ ((transformHandleCurve h t s).2.cache.surface_vertices
          = s.cache.surface_vertices)
      ∧ ((transformHandleCurve h t s).2.cache.global_edges
          = s.cache.global_edges)
      ∧ ((transformHandleCurve h t s).2.cache.half_edges
          = s.cache.half_edges) := by
  unfold transformHandleCurve
  split <;> exact ⟨rfl, rfl, rfl, rfl⟩

lemma transformHandleCurve_mono (h : Handle Curve) (t : Transform)
    (s : TState) : cacheLe s.cache (transformHandleCurve h t s).2.cache := by
  unfold transformHandleCurve
  split
  · exact cacheLe_refl _
  · rename_i heq
    exact ⟨fun _ _ hk => lookupId_cons_preserve heq hk, fun _ _ hk => hk,
      fun _ _ hk => hk, fun _ _ hk => hk, fun _ _ hk => hk⟩

/-- The state a surface-vertex value transform returns is the state its
global-form handle transform returns. -/
lemma SurfaceVertex.transformWithCache_sndSV (sv : SurfaceVertex)
    (t : Transform) (s : TState) :
    (sv.transformWithCache t s).2 = (transformHandleGV sv.global_form t s).2 :=
  rfl

/-- Transforming a surface-vertex handle leaves the curve, global-edge and
half-edge cache submaps untouched. -/
lemma transformHandleSV_preserves (h : Handle SurfaceVertex) (t : Transform)
    (s : TState) :
    ((transformHandleSV h t s).2.cache.curves = s.cache.curves)
      ∧ ((transformHandleSV h t s).2.cache.global_edges
          = s.cache.global_edges)
      ∧ ((transformHandleSV h t s).2.cache.half_edges
          = s.cache.half_edges) := by
  unfold transformHandleSV
  split
  · exact ⟨rfl, rfl, rfl⟩
  · rename_i heq
    have hp := transformHandleGV_preserves h.value.global_form t s
    exact ⟨hp.1, hp.2.2.1, hp.2.2.2⟩

lemma transformHandleSV_mono (h : Handle SurfaceVertex) (t : Transform)
    (s : TState) : cacheLe s.cache (transformHandleSV h t s).2.cache := by
  unfold transformHandleSV
  split
  · exact cacheLe_refl _
  · rename_i heq
    have hp := transformHandleGV_preserves h.value.global_form t s
    have hm := transformHandleGV_mono h.value.global_form t s
    refine ⟨fun k v hk => hm.1 k v hk, fun k v hk => hm.2.1 k v hk,
      fun k v hk => ?_, fun k v hk => hm.2.2.2.1 k v hk,
      fun k v hk => hm.2.2.2.2 k v hk⟩
    show lookupId k ((h.id, _) :: (transformHandleGV h.value.global_form t
      s).2.cache.surface_vertices) = some v
    rw [hp.2.1]
    exact lookupId_cons_preserve heq hk

/-- The state a global-edge value transform returns is the composition of its
two vertex handle transforms. -/
lemma GlobalEdge.transformWithCache_sndGE (ge : GlobalEdge) (t : Transform)
    (s : TState) :
    (ge.transformWithCache t s).2
      = (transformHandleGV ge.vertices.2 t
          (transformHandleGV ge.vertices.1 t s).2).2 :=
  rfl

/-- Transforming a global-edge handle leaves the curve, surface-vertex and
half-edge cache submaps untouched. -/
lemma transformHandleGE_preserves (h : Handle GlobalEdge) (t : Transform)
    (s : TState) :
    ((transformHandleGE h t s).2.cache.curves = s.cache.curves)
      ∧ ((transformHandleGE h t s).2.cache.surface_vertices
          = s.cache.surface_vertices)
      ∧ ((transformHandleGE h t s).2.cache.half_edges
          = s.cache.half_edges) := by
  unfold transformHandleGE
  split
  · exact ⟨rfl, rfl, rfl⟩
  · rename_i heq
    have h1 := transformHandleGV_preserves h.value.vertices.1 t s
    have h2 := transformHandleGV_preserves h.value.vertices.2 t
      (transformHandleGV h.value.vertices.1 t s).2
    exact ⟨h2.1.trans h1.1, h2.2.1.trans h1.2.1, h2.2.2.2.trans h1.2.2.2⟩

lemma transformHandleGE_mono (h : Handle GlobalEdge) (t : Transform)
    (s : TState) : cacheLe s.cache (transformHandleGE h t s).2.cache := by
  unfold transformHandleGE
  split
  · exact cacheLe_refl _
  · rename_i heq
    have h1p := transformHandleGV_preserves h.value.vertices.1 t s
    have h2p := transformHandleGV_preserves h.value.vertices.2 t
      (transformHandleGV h.value.vertices.1 t s).2
    have hm := cacheLe_trans (transformHandleGV_mono h.value.vertices.1 t s)
      (transformHandleGV_mono h.value.vertices.2 t
        (transformHandleGV h.value.vertices.1 t s).2)
    refine ⟨fun k v hk => hm.1 k v hk, fun k v hk => hm.2.1 k v hk,
      fun k v hk => hm.2.2.1 k v hk, fun k v hk => ?_,
      fun k v hk => hm.2.2.2.2 k v hk⟩
    show lookupId k ((h.id, _) ::
      ((h.value.transformWithCache t s).2).cache.global_edges) = some v
    rw [GlobalEdge.transformWithCache_sndGE, h2p.2.2.1, h1p.2.2.1]
    exact lookupId_cons_preserve heq hk

/-- Transforming a global-edge handle records the result under the source
identity. -/
lemma transformHandleGE_lookup (h : Handle GlobalEdge) (t : Transform)
    (s : TState) :
    lookupId h.id (transformHandleGE h t s).2.cache.global_edges
      = some (transformHandleGE h t s).1 := by
  unfold transformHandleGE
  split
  · rename_i cached heq; exact heq
  · simp [lookupId_cons]

/-- The state a half-edge value transform returns is the composition of the
curve, surface-vertex and global-form handle transforms. -/
lemma HalfEdge.transformWithCache_sndHE (he : HalfEdge) (t : Transform)
    (s : TState) :
    (he.transformWithCache t s).2
      = (transformHandleGE he.global_form t
          (transformHandleSV he.surface_vertices.2 t
            (transformHandleSV he.surface_vertices.1 t
              (transformHandleCurve he.curve t s).2).2).2).2 :=
  rfl

/-- The global form of a transformed half-edge value is the result of the
global-form handle transform. -/
lemma HalfEdge.transformWithCache_globalForm (he : HalfEdge) (t : Transform)
    (s : TState) :
    (he.transformWithCache t s).1.global_form
      = (transformHandleGE he.global_form t
          (transformHandleSV he.surface_vertices.2 t
            (transformHandleSV he.surface_vertices.1 t
              (transformHandleCurve he.curve t s).2).2).2).1 :=
  rfl

lemma HalfEdge.transformWithCache_mono (he : HalfEdge) (t : Transform)
    (s : TState) : cacheLe s.cache (he.transformWithCache t s).2.cache := by
  rw [HalfEdge.transformWithCache_sndHE]
  exact cacheLe_trans (transformHandleCurve_mono _ _ _)
    (cacheLe_trans (transformHandleSV_mono _ _ _)
      (cacheLe_trans (transformHandleSV_mono _ _ _)
        (transformHandleGE_mono _ _ _)))

lemma HalfEdge.transformWithCache_preserves_he (he : HalfEdge)
    (t : Transform) (s : TState) :
    (he.transformWithCache t s).2.cache.half_edges
      = s.cache.half_edges := by
  rw [HalfEdge.transformWithCache_sndHE]
  rw [(transformHandleGE_preserves _ _ _).2.2,
    (transformHandleSV_preserves _ _ _).2.2,
    (transformHandleSV_preserves _ _ _).2.2,
    (transformHandleCurve_preserves _ _ _).2.2.2]

/-- After a half-edge value transform, the global-edge cache binds the source
global-form identity to the transformed global form. -/
lemma HalfEdge.transformWithCache_ge_lookup (he : HalfEdge) (t : Transform)
    (s : TState) :
    lookupId he.global_form.id
        (he.transformWithCache t s).2.cache.global_edges
      = some (he.transformWithCache t s).1.global_form := by
  rw [HalfEdge.transformWithCache_sndHE, HalfEdge.transformWithCache_globalForm]
  exact transformHandleGE_lookup _ _ _

/-- Equation lemma: a cache hit returns the cached handle and the unchanged
state. -/
lemma transformHandleHE_hit {h : Handle HalfEdge} (t : Transform)
    {s : TState} {cached : Handle HalfEdge}
    (hm : lookupId h.id s.cache.half_edges = some cached) :
    transformHandleHE h t s = (cached, s) := by
  unfold transformHandleHE
  rw [hm]

/-- Equation lemma, miss case: the returned handle carries the transformed
value. -/
lemma transformHandleHE_miss_val {h : Handle HalfEdge} (t : Transform)
    {s : TState} (hm : lookupId h.id s.cache.half_edges = none) :
    (transformHandleHE h t s).1.value
      = (h.value.transformWithCache t s).1 := by
  unfold transformHandleHE
  rw [hm]
  rfl

/-- Equation lemma, miss case: the half-edge cache gains exactly the binding
for the source identity. -/
lemma transformHandleHE_miss_cache_he {h : Handle HalfEdge} (t : Transform)
    {s : TState} (hm : lookupId h.id s.cache.half_edges = none) :
    (transformHandleHE h t s).2.cache.half_edges
      = (h.id, (transformHandleHE h t s).1)
        :: (h.value.transformWithCache t s).2.cache.half_edges := by
  unfold transformHandleHE
  rw [hm]

/-- Equation lemma, miss case: the other cache submaps are those of the value
transform. -/
lemma transformHandleHE_miss_cache_rest {h : Handle HalfEdge} (t : Transform)
    {s : TState} (hm : lookupId h.id s.cache.half_edges = none) :
    ((transformHandleHE h t s).2.cache.curves
        = (h.value.transformWithCache t s).2.cache.curves)
      ∧ ((transformHandleHE h t s).2.cache.global_vertices
          = (h.value.transformWithCache t s).2.cache.global_vertices)
      ∧ ((transformHandleHE h t s).2.cache.surface_vertices
          = (h.value.transformWithCache t s).2.cache.surface_vertices)
      ∧ ((transformHandleHE h t s).2.cache.global_edges
          = (h.value.transformWithCache t s).2.cache.global_edges) := by
  unfold transformHandleHE
  rw [hm]
  exact ⟨rfl, rfl, rfl, rfl⟩

/-- Identity coherence of a handle list: two handles in it with the same
identity are the same handle (true of any store-derived graph, where the
store owns one canonical content per identity). -/
def cohList (L : List (Handle HalfEdge)) : Prop :=
  ∀ h h', h ∈ L → h' ∈ L → h.id = h'.id → h = h'

/-- Cache invariant tying half-edge cache entries for handles of the graph to
global-edge cache entries: whatever the half-edge cache already maps a source
half-edge to, the global-edge cache maps its global form accordingly. -/
def heGeInv (L : List (Handle HalfEdge)) (s : TState) : Prop :=
  ∀ h out, h ∈ L → lookupId h.id s.cache.half_edges = some out →
    lookupId h.value.global_form.id s.cache.global_edges
      = some out.value.global_form

/-- One step of the half-edge transform: the cache grows, the invariant is
preserved, and afterwards the global-edge cache binds the source's global
form to the output's global form. -/
lemma transformHandleHE_step (h : Handle HalfEdge) (t : Transform)
    (s : TState) (L : List (Handle HalfEdge)) (hmem : h ∈ L)
    (hcoh : cohList L) (hinv : heGeInv L s) :
    cacheLe s.cache (transformHandleHE h t s).2.cache
      ∧ heGeInv L (transformHandleHE h t s).2
      ∧ lookupId h.value.global_form.id
          (transformHandleHE h t s).2.cache.global_edges
        = some (transformHandleHE h t s).1.value.global_form := by
  rcases hm : lookupId h.id s.cache.half_edges with _ | cached
  · have hval := transformHandleHE_miss_val t hm
    have hche := transformHandleHE_miss_cache_he t hm
    have hrest := transformHandleHE_miss_cache_rest t hm
    have hmono := HalfEdge.transformWithCache_mono h.value t s
    have hpres := HalfEdge.transformWithCache_preserves_he h.value t s
    have hgel := HalfEdge.transformWithCache_ge_lookup h.value t s
    have hge : lookupId h.value.global_form.id
        (transformHandleHE h t s).2.cache.global_edges
        = some (transformHandleHE h t s).1.value.global_form := by
      rw [hrest.2.2.2, hval]
      exact hgel
    refine ⟨?_, ?_, hge⟩
    · refine ⟨fun k v hk => ?_, fun k v hk => ?_, fun k v hk => ?_,
        fun k v hk => ?_, fun k v hk => ?_⟩
      · rw [hrest.1]; exact hmono.1 k v hk
      · rw [hrest.2.1]; exact hmono.2.1 k v hk
      · rw [hrest.2.2.1]; exact hmono.2.2.1 k v hk
      · rw [hrest.2.2.2]; exact hmono.2.2.2.1 k v hk
      · rw [hche, hpres]; exact lookupId_cons_preserve hm hk
    · intro h₂ out₂ hmem₂ hlook₂
      rw [hche, hpres, lookupId_cons] at hlook₂
      by_cases hid : h₂.id = h.id
      · rw [if_pos hid] at hlook₂
        obtain rfl := (Option.some.inj hlook₂).symm
        obtain rfl := hcoh h₂ h hmem₂ hmem hid
        exact hge
      · rw [if_neg hid] at hlook₂
        have hbase := hinv h₂ out₂ hmem₂ hlook₂
        rw [hrest.2.2.2]
        exact hmono.2.2.2.1 _ _ hbase
  · have heqn := transformHandleHE_hit t hm
    rw [heqn]
    exact ⟨cacheLe_refl _, hinv, hinv h cached hmem hm⟩

/-- Transforming a list of half-edge handles: the cache grows, the invariant
is preserved, and the final global-edge cache binds every input's global-form
identity to the corresponding output's global form.  Since a lookup is a
function of the key, equal source identities are forced to equal transformed
handles. -/
lemma transformHandleHEList_spec (t : Transform)
    (L : List (Handle HalfEdge)) (hcoh : cohList L) :
    ∀ (l : List (Handle HalfEdge)) (s : TState), (∀ h ∈ l, h ∈ L) →
      heGeInv L s →
      cacheLe s.cache (transformHandleHEList t l s).2.cache
        ∧ heGeInv L (transformHandleHEList t l s).2
        ∧ ∀ (i : Nat) (h out : Handle HalfEdge), l[i]? = some h →
            (transformHandleHEList t l s).1[i]? = some out →
            lookupId h.value.global_form.id
                (transformHandleHEList t l s).2.cache.global_edges
              = some out.value.global_form := by
  intro l
  induction l with
  | nil =>
    intro s _ hinv
    refine ⟨cacheLe_refl _, hinv, ?_⟩
    intro i h out h1 _
    simp [transformHandleHEList] at h1
  | cons hd tl ih =>
    intro s hsub hinv
    have hstep := transformHandleHE_step hd t s L (hsub hd (by simp)) hcoh
      hinv
    have hrest := ih (transformHandleHE hd t s).2
      (fun h hh => hsub h (by simp [hh])) hstep.2.1
    have hfold : transformHandleHEList t (hd :: tl) s
        = ((transformHandleHE hd t s).1
            :: (transformHandleHEList t tl (transformHandleHE hd t s).2).1,
          (transformHandleHEList t tl (transformHandleHE hd t s).2).2) := rfl
    rw [hfold]
    refine ⟨cacheLe_trans hstep.1 hrest.1, hrest.2.1, ?_⟩
    intro i h out h1 h2
    cases i with
    | zero =>
      rw [List.getElem?_cons_zero] at h1 h2
      obtain rfl := Option.some.inj h1
      obtain rfl := Option.some.inj h2
      exact hrest.1.2.2.2.1 _ _ hstep.2.2
    | succ n =>
      rw [List.getElem?_cons_succ] at h1 h2
      exact hrest.2.2 n h out h1 h2

/-- C4: transforming a cycle with the (request-scoped, initially empty)
cache produces exactly one transformed copy per distinct source identity: two
half-edges of the cycle whose global forms carry the same source identity are
mapped to half-edges carrying one and the same transformed global-edge
handle, however many paths reach it. -/
theorem transform_cycle_shares_global_edge (t : Transform) (c : Cycle)
    (objects : Objects) (i j : Nat) (hei hej outi outj : Handle HalfEdge)
    (hcoh : cohList c.half_edges)
    (hgi : c.half_edges[i]? = some hei)
    (hgj : c.half_edges[j]? = some hej)
    (hshare : hei.value.global_form.id = hej.value.global_form.id)
    (hoi : (c.transformObject t objects).1.half_edges[i]? = some outi)
    (hoj : (c.transformObject t objects).1.half_edges[j]? = some outj) :
    outi.value.global_form = outj.value.global_form := by
  have hspec := transformHandleHEList_spec t c.half_edges hcoh c.half_edges
    ⟨objects, TransformCache.empty⟩ (fun _ hh => hh)
    (by
      intro h out _ hl
      simp [TransformCache.empty, lookupId] at hl)
  have hres : (c.transformObject t objects).1.half_edges
      = (transformHandleHEList t c.half_edges
          ⟨objects, TransformCache.empty⟩).1 := rfl
  rw [hres] at hoi hoj
  have li := hspec.2.2 i hei outi hgi hoi
  have lj := hspec.2.2 j hej outj hgj hoj
  rw [hshare] at li
  rw [li] at lj
  exact Option.some.inj lj

/-- Fixtures for the C4 witness: a cycle of two half-edges sharing one
`GlobalEdge` handle (and, through it, two `GlobalVertex` handles). -/
def wGv0 : Handle GlobalVertex := ⟨0, GlobalVertex.new (0, 0, 0)⟩

def wGv1 : Handle GlobalVertex := ⟨1, GlobalVertex.new (1, 0, 0)⟩

def wGe : Handle GlobalEdge := ⟨0, { vertices := (wGv0, wGv1) }⟩

def wSv0 : Handle SurfaceVertex := ⟨0, SurfaceVertex.new (0, 0) wGv0⟩

def wSv1 : Handle SurfaceVertex := ⟨1, SurfaceVertex.new (1, 0) wGv1⟩

def wCu : Handle Curve := ⟨0, ()⟩

def wHe0 : Handle HalfEdge := ⟨0, HalfEdge.new wCu (0, 1) (wSv0, wSv1) wGe⟩

def wHe1 : Handle HalfEdge := ⟨1, HalfEdge.new wCu (0, 1) (wSv1, wSv0) wGe⟩

def wCyc : Cycle := Cycle.new [wHe0, wHe1]

/-- Witness for C4: the concrete two-half-edge cycle transformed by the
identity motion out of empty stores; the two transformed half-edges share one
global-edge handle. -/
theorem transform_cycle_shares_global_edge_witness :
    wHe0.value.global_form = wHe1.value.global_form :=
  transform_cycle_shares_global_edge ⟨fun p => p⟩ wCyc Objects.empty 0 1
    wHe0 wHe1 wHe0 wHe1
    (by
      intro h h' hh hh' hid
      simp only [wCyc, Cycle.new, List.mem_cons, List.not_mem_nil, or_false,
        List.mem_singleton] at hh hh'
      rcases hh with rfl | rfl <;> rcases hh' with rfl | rfl <;>
        first
          | rfl
          | exact absurd hid (by decide))
    rfl rfl rfl rfl rfl

/-! ## Triangle mesh (fj-interop) -/

/-- RGBA color (`Color(pub [u8; 4])`). -/
abbrev Color := Nat × Nat × Nat × Nat

/-- A triangle in 3D space, by its three points. -/
abbrev Triangle3 := Point3 × Point3 × Point3

/-- A mesh triangle: points plus color (`fj_interop::mesh::Triangle`). -/
structure MeshTriangle where
  inner : Triangle3
  color : Color
  deriving DecidableEq, Repr

/-- The triangle mesh (`fj_interop::mesh::Mesh`), at `V = Point<3>`. -/
structure Mesh where
  vertices : List Point3
  indices : List Nat
  indices_by_vertex : List (Point3 × Nat)
  triangles : List MeshTriangle
  deriving DecidableEq, Repr

/-- `Mesh::new` / `Default`. -/
def Mesh.empty : Mesh :=
  ⟨[], [], [], []⟩

/-- Lookup in the vertex-to-index map. -/
def lookupVertex (v : Point3) : List (Point3 × Nat) → Option Nat
  | [] => none
  | (v', i) :: rest => if v = v' then some i else lookupVertex v rest

/-- `Mesh::push_vertex`: deduplicate the vertex through `indices_by_vertex`,
appending a (possibly fresh) index. -/
def Mesh.push_vertex (m : Mesh) (vertex : Point3) : Mesh :=
  match lookupVertex vertex m.indices_by_vertex with
  | some index => { m with indices := m.indices ++ [index] }
  | none =>
    let index := m.vertices.length
    { m with
      vertices := m.vertices ++ [vertex],
      indices_by_vertex := (vertex, index) :: m.indices_by_vertex,
      indices := m.indices ++ [index] }

/-- The three points of a triangle, in order. -/
def trianglePoints (t : Triangle3) : List Point3 :=
  [t.1, t.2.1, t.2.2]

/-- `Mesh::push_triangle`: push the three vertices, then record the
triangle. -/
def Mesh.push_triangle (m : Mesh) (triangle : Triangle3) (color : Color) :
    Mesh :=
  let m1 := (trianglePoints triangle).foldl (fun acc p => acc.push_vertex p) m
  { m1 with triangles := m1.triangles ++ [⟨triangle, color⟩] }

/-- Lexicographic order on 3D points, the canonical order normalization
sorts by. -/
def ptLe (p q : Point3) : Prop :=
  p.1 < q.1
    ∨ (p.1 = q.1
        ∧ (p.2.1 < q.2.1 ∨ (p.2.1 = q.2.1 ∧ p.2.2 ≤ q.2.2)))

instance : DecidableRel ptLe := fun p q => by
  unfold ptLe
  exact inferInstance

instance : IsTotal Point3 ptLe := by
  constructor
  intro a b
  unfold ptLe
  rcases lt_trichotomy a.1 b.1 with h1 | h1 | h1
  · exact Or.inl (Or.inl h1)
  · rcases lt_trichotomy a.2.1 b.2.1 with h2 | h2 | h2
    · exact Or.inl (Or.inr ⟨h1, Or.inl h2⟩)
    · rcases le_total a.2.2 b.2.2 with h3 | h3
      · exact Or.inl (Or.inr ⟨h1, Or.inr ⟨h2, h3⟩⟩)
      · exact Or.inr (Or.inr ⟨h1.symm, Or.inr ⟨h2.symm, h3⟩⟩)
    · exact Or.inr (Or.inr ⟨h1.symm, Or.inl h2⟩)
  · exact Or.inr (Or.inl h1)

instance : IsTrans Point3 ptLe := by
  constructor
  intro a b c hab hbc
  unfold ptLe at hab hbc ⊢
  rcases hab with h1 | ⟨e1, h1⟩ <;> rcases hbc with h2 | ⟨e2, h2⟩
  · exact Or.inl (lt_trans h1 h2)
  · exact Or.inl (lt_of_lt_of_le h1 (le_of_eq e2))
  · exact Or.inl (lt_of_le_of_lt (le_of_eq e1) h2)
  · refine Or.inr ⟨e1.trans e2, ?_⟩
    rcases h1 with g1 | ⟨f1, g1⟩ <;> rcases h2 with g2 | ⟨f2, g2⟩
    · exact Or.inl (lt_trans g1 g2)
    · exact Or.inl (lt_of_lt_of_le g1 (le_of_eq f2))
    · exact Or.inl (lt_of_le_of_lt (le_of_eq f1) g2)
    · exact Or.inr ⟨f1.trans f2, le_trans g1 g2⟩

instance : IsAntisymm Point3 ptLe := by
  constructor
  intro a b hab hba
  unfold ptLe at hab hba
  rcases hab with h1 | ⟨e1, h1⟩ <;> rcases hba with h2 | ⟨e2, h2⟩
  · exact absurd (lt_trans h1 h2) (lt_irrefl _)
  · exact absurd h1 (by rw [e2]; exact lt_irrefl _)
  · exact absurd h2 (by rw [e1]; exact lt_irrefl _)
  · rcases h1 with g1 | ⟨f1, g1⟩ <;> rcases h2 with g2 | ⟨f2, g2⟩
    · exact absurd (lt_trans g1 g2) (lt_irrefl _)
    · exact absurd g1 (by rw [f2]; exact lt_irrefl _)
    · exact absurd g2 (by rw [f1]; exact lt_irrefl _)
    · have e3 : a.2.2 = b.2.2 := le_antisymm g1 g2
      exact Prod.ext e1 (Prod.ext f1 e3)

/-- Modelled from the spec: `fj_math::Triangle::normalize` (fj-math is an
external carrier library): bring the three points into the canonical order,
so that comparison of normalized triangles is independent of the order and
rotation in which the points are given. -/
def Triangle3.normalize (t : Triangle3) : List Point3 :=
  List.insertionSort ptLe (trianglePoints t)

/-- `Mesh::contains_triangle`: true iff some recorded triangle equals the
query after both are normalized. -/
def Mesh.contains_triangle (m : Mesh) (triangle : Triangle3) : Bool :=
  m.triangles.any fun t => decide (t.inner.normalize = triangle.normalize)

lemma normalize_perm (t : Triangle3) :
    List.Perm t.normalize (trianglePoints t) :=
  List.perm_insertionSort ptLe _

lemma normalize_sorted (t : Triangle3) : List.Sorted ptLe t.normalize :=
  List.sorted_insertionSort ptLe _

/-- Normalized forms agree exactly when the triangles carry the same
unordered collection of three points. -/
lemma normalize_eq_iff (t q : Triangle3) :
    t.normalize = q.normalize
      ↔ (trianglePoints t : Multiset Point3) = (trianglePoints q) := by
  constructor
  · intro h
    refine Multiset.coe_eq_coe.mpr ?_
    exact (normalize_perm t).symm.trans (h ▸ normalize_perm q)
  · intro h
    have hp : List.Perm (trianglePoints t) (trianglePoints q) :=
      Multiset.coe_eq_coe.mp h
    exact List.eq_of_perm_of_sorted
      ((normalize_perm t).trans (hp.trans (normalize_perm q).symm))
      (normalize_sorted t) (normalize_sorted q)

lemma push_vertex_triangles (m : Mesh) (v : Point3) :
    (m.push_vertex v).triangles = m.triangles := by
  unfold Mesh.push_vertex
  split <;> rfl

lemma foldl_push_vertex_triangles (l : List Point3) :
    ∀ m : Mesh,
      (l.foldl (fun acc p => acc.push_vertex p) m).triangles
        = m.triangles := by
  induction l with
  | nil => intro m; rfl
  | cons p l ih =>
    intro m
    rw [List.foldl_cons, ih, push_vertex_triangles]

lemma push_triangle_triangles (m : Mesh) (tr : Triangle3) (c : Color) :
    (m.push_triangle tr c).triangles = m.triangles ++ [⟨tr, c⟩] := by
  show ((trianglePoints tr).foldl (fun acc p => acc.push_vertex p)
      m).triangles ++ [⟨tr, c⟩] = m.triangles ++ [⟨tr, c⟩]
  rw [foldl_push_vertex_triangles]

/-- Build a mesh from a sequence of `push_triangle` calls on the empty
mesh. -/
def buildMesh (ops : List (Triangle3 × Color)) : Mesh :=
  ops.foldl (fun m tc => m.push_triangle tc.1 tc.2) Mesh.empty

lemma foldl_push_triangle_triangles (ops : List (Triangle3 × Color)) :
    ∀ m : Mesh,
      (ops.foldl (fun m tc => m.push_triangle tc.1 tc.2) m).triangles
        = m.triangles ++ ops.map (fun tc => MeshTriangle.mk tc.1 tc.2) := by
  induction ops with
  | nil => intro m; simp
  | cons tc ops ih =>
    intro m
    rw [List.foldl_cons, ih, push_triangle_triangles, List.map_cons,
      List.append_assoc, List.singleton_append]

lemma buildMesh_triangles (ops : List (Triangle3 × Color)) :
    (buildMesh ops).triangles
      = ops.map (fun tc => MeshTriangle.mk tc.1 tc.2) := by
  unfold buildMesh
  rw [foldl_push_triangle_triangles]
  rfl

/-- C9: a mesh built by a sequence of `push_triangle` calls contains a query
triangle iff some pushed triangle has the same unordered collection of three
points — identity is by the points, independent of the order and rotation in
which they were given or inserted. -/
theorem mesh_contains_triangle_iff (ops : List (Triangle3 × Color))
    (q : Triangle3) :
    (buildMesh ops).contains_triangle q = true
      ↔ ∃ tc ∈ ops,
          (trianglePoints tc.1 : Multiset Point3) = (trianglePoints q) := by
  unfold Mesh.contains_triangle
  rw [List.any_eq_true]
  constructor
  · rintro ⟨tr, htr, hdec⟩
    rw [buildMesh_triangles] at htr
    obtain ⟨tc, htc, rfl⟩ := List.mem_map.mp htr
    exact ⟨tc, htc, (normalize_eq_iff _ _).mp (of_decide_eq_true hdec)⟩
  · rintro ⟨tc, htc, hms⟩
    refine ⟨MeshTriangle.mk tc.1 tc.2, ?_, ?_⟩
    · rw [buildMesh_triangles]
      exact List.mem_map.mpr ⟨tc, htc, rfl⟩
    · exact decide_eq_true ((normalize_eq_iff _ _).mpr hms)

/-! ## Partial objects: snapshot (from_full) and build -/

/-- The identity of a partial-object wrapper instance (in the code an
`Rc` cell; here an arena index). -/
abbrev Pid := Nat

/-- Modelled from the spec: the partial counterpart of `GlobalVertex`, with
its field individually optional. -/
structure PartialGlobalVertex where
  position : Option Point3
  deriving DecidableEq, Repr

/-- Partial counterpart of a curve (geometry out of scope). -/
abbrev PartialCurve := Unit

/-- Modelled from the spec: the partial counterpart of `SurfaceVertex`; the
handle-typed field holds a reference to a partial wrapper instance. -/
structure PartialSurfaceVertex where
  position : Option Point2
  global_form : Pid
  deriving DecidableEq, Repr

/-- Modelled from the spec: the partial counterpart of `GlobalEdge`. -/
structure PartialGlobalEdge where
  vertices : Pid × Pid
  deriving DecidableEq, Repr

/-- Modelled from the spec: the partial counterpart of `HalfEdge`. -/
structure PartialHalfEdge where
  curve : Pid
  boundary : Option (Point1 × Point1)
  surface_vertices : Pid × Pid
  global_form : Pid
  deriving DecidableEq, Repr

/-- A partial `Cycle` (`partial/objects/cycle.rs`): the half-edges that make
up the cycle, as references to partial wrapper instances. -/
structure PartialCycle where
  half_edges : List Pid
  deriving DecidableEq, Repr

/-- Modelled from the spec: the shared wrapper cell around a partial object
(`Partial<T>`): the staged partial value, plus the built full handle once the
instance has been built — so that one shared instance builds to one identity,
the shared-structure preservation the round trip guarantees. -/
structure PartialWrapper (π φ : Type) where
  partialValue : π
  full : Option (Handle φ)
  deriving DecidableEq, Repr

/-- The arena of live partial wrapper instances, one submap per type. -/
structure PartialStore where
  nextPid : Pid
  curves : List (Pid × PartialWrapper PartialCurve Curve)
  global_vertices : List (Pid × PartialWrapper PartialGlobalVertex GlobalVertex)
  surface_vertices :
    List (Pid × PartialWrapper PartialSurfaceVertex SurfaceVertex)
  global_edges : List (Pid × PartialWrapper PartialGlobalEdge GlobalEdge)
  half_edges : List (Pid × PartialWrapper PartialHalfEdge HalfEdge)
  deriving DecidableEq, Repr

/-- The empty arena. -/
def PartialStore.empty : PartialStore :=
  ⟨0, [], [], [], [], []⟩

/-- Modelled from the spec: the cache threaded through `from_full`, mapping
already-visited full-object identities to the partial wrapper instance
already created for them, one submap per type. -/
structure FullToPartialCache where
  curves : List (Nat × Pid)
  global_vertices : List (Nat × Pid)
  surface_vertices : List (Nat × Pid)
  global_edges : List (Nat × Pid)
  half_edges : List (Nat × Pid)
  deriving DecidableEq, Repr

/-- The empty cache, created per top-level snapshot. -/
def FullToPartialCache.empty : FullToPartialCache :=
  ⟨[], [], [], [], []⟩

/-- The state a snapshot threads: the wrapper arena and the
full-identity-to-wrapper cache. -/
structure PState where
  store : PartialStore
  cache : FullToPartialCache
  deriving DecidableEq, Repr

/-- The initial snapshot state. -/
def PState.empty : PState :=
  ⟨PartialStore.empty, FullToPartialCache.empty⟩

/-- Modelled from the spec: `Partial::from_full` for a curve handle: reuse
the cached wrapper for an already-visited identity, else create a fresh
wrapper. -/
def fromFullCurve (h : Handle Curve) (s : PState) : Pid × PState :=
  match lookupId h.id s.cache.curves with
  | some pid => (pid, s)
  | none =>
    let pid := s.store.nextPid
    (pid,
      { store :=
          { s.store with
            nextPid := pid + 1,
            curves := (pid, ⟨(), none⟩) :: s.store.curves },
        cache :=
          { s.cache with
            curves := (h.id, pid) :: s.cache.curves } })

/-- Modelled from the spec: `Partial::from_full` for a `GlobalVertex`
handle. -/
def fromFullGV (h : Handle GlobalVertex) (s : PState) : Pid × PState :=
  match lookupId h.id s.cache.global_vertices with
  | some pid => (pid, s)
  | none =>
    let pid := s.store.nextPid
    (pid,
      { store :=
          { s.store with
            nextPid := pid + 1,
            global_vertices := (pid, ⟨⟨some h.value.position⟩, none⟩)
              :: s.store.global_vertices },
        cache :=
          { s.cache with
            global_vertices := (h.id, pid) :: s.cache.global_vertices } })

/-- Modelled from the spec: `Partial::from_full` for a `SurfaceVertex`
handle: recursively snapshot the global form first. -/
def fromFullSV (h : Handle SurfaceVertex) (s : PState) : Pid × PState :=
  match lookupId h.id s.cache.surface_vertices with
  | some pid => (pid, s)
  | none =>
    let g := fromFullGV h.value.global_form s
    let pid := g.2.store.nextPid
    (pid,
      { store :=
          { g.2.store with
            nextPid := pid + 1,
            surface_vertices := (pid, ⟨⟨some h.value.position, g.1⟩, none⟩)
              :: g.2.store.surface_vertices },
        cache :=
          { g.2.cache with
            surface_vertices :=
              (h.id, pid) :: g.2.cache.surface_vertices } })

/-- Modelled from the spec: `Partial::from_full` for a `GlobalEdge`
handle. -/
def fromFullGE (h : Handle GlobalEdge) (s : PState) : Pid × PState :=
  match lookupId h.id s.cache.global_edges with
  | some pid => (pid, s)
  | none =>
    let a := fromFullGV h.value.vertices.1 s
    let b := fromFullGV h.value.vertices.2 a.2
    let pid := b.2.store.nextPid
    (pid,
      { store :=
          { b.2.store with
            nextPid := pid + 1,
            global_edges := (pid, ⟨⟨(a.1, b.1)⟩, none⟩)
              :: b.2.store.global_edges },
        cache :=
          { b.2.cache with
            global_edges := (h.id, pid) :: b.2.cache.global_edges } })

/-- Modelled from the spec: `Partial::from_full` for a `HalfEdge` handle:
recursively snapshot the curve, the surface vertices and the global form. -/
def fromFullHE (h : Handle HalfEdge) (s : PState) : Pid × PState :=
  match lookupId h.id s.cache.half_edges with
  | some pid => (pid, s)
  | none =>
    let cu := fromFullCurve h.value.curve s
    let v1 := fromFullSV h.value.surface_vertices.1 cu.2
    let v2 := fromFullSV h.value.surface_vertices.2 v1.2
    let g := fromFullGE h.value.global_form v2.2
    let pid := g.2.store.nextPid
    (pid,
      { store :=
          { g.2.store with
            nextPid := pid + 1,
            half_edges :=
              (pid,
                ⟨⟨cu.1, some h.value.boundary, (v1.1, v2.1), g.1⟩, none⟩)
                :: g.2.store.half_edges },
        cache :=
          { g.2.cache with
            half_edges := (h.id, pid) :: g.2.cache.half_edges } })

/-- Snapshot a list of half-edge handles, threading the state. -/
def fromFullHEList : List (Handle HalfEdge) → PState → List Pid × PState
  | [], s => ([], s)
  | h :: rest, s =>
    let r := fromFullHE h s
    let q := fromFullHEList rest r.2
    (r.1 :: q.1, q.2)

/-- `PartialCycle::from_full` (from `partial/objects/cycle.rs`): snapshot
each half-edge through `Partial::from_full`, threading the one cache. -/
def fromFullCycle (c : Cycle) (s : PState) : PartialCycle × PState :=
  let r := fromFullHEList c.half_edges s
  (⟨r.1⟩, r.2)

/-- Update the first binding of a key in an association list. -/
def updateAssoc {α : Type} (k : Nat) (f : α → α) :
    List (Nat × α) → List (Nat × α)
  | [] => []
  | (k', v) :: rest =>
    if k' = k then (k', f v) :: rest else (k', v) :: updateAssoc k f rest

/-- Mutate one field of a staged partial half-edge (writing through the
shared wrapper): replace its boundary. -/
def updateHalfEdgeBoundary (ps : PartialStore) (pid : Pid)
    (b : Point1 × Point1) : PartialStore :=
  { ps with
    half_edges :=
      updateAssoc pid
        (fun w =>
          { w with
            partialValue :=
              { w.partialValue with boundary := some b } })
        ps.half_edges }

/-- The state a build threads: the wrapper arena (whose `full` fields
memoize built instances) and the object stores. -/
structure BState where
  store : PartialStore
  objects : Objects

/-- Record the built handle in a global-vertex wrapper. -/
def setFullGV (ps : PartialStore) (pid : Pid) (h : Handle GlobalVertex) :
    PartialStore :=
  { ps with
    global_vertices :=
      updateAssoc pid (fun w => { w with full := some h }) ps.global_vertices }

/-- Record the built handle in a curve wrapper. -/
def setFullCU (ps : PartialStore) (pid : Pid) (h : Handle Curve) :
    PartialStore :=
  { ps with
    curves :=
      updateAssoc pid (fun w => { w with full := some h }) ps.curves }

/-- Record the built handle in a surface-vertex wrapper. -/
def setFullSV (ps : PartialStore) (pid : Pid) (h : Handle SurfaceVertex) :
    PartialStore :=
  { ps with
    surface_vertices :=
      updateAssoc pid (fun w => { w with full := some h }) ps.surface_vertices }

/-- Record the built handle in a global-edge wrapper. -/
def setFullGE (ps : PartialStore) (pid : Pid) (h : Handle GlobalEdge) :
    PartialStore :=
  { ps with
    global_edges :=
      updateAssoc pid (fun w => { w with full := some h }) ps.global_edges }

/-- Record the built handle in a half-edge wrapper. -/
def setFullHE (ps : PartialStore) (pid : Pid) (h : Handle HalfEdge) :
    PartialStore :=
  { ps with
    half_edges :=
      updateAssoc pid (fun w => { w with full := some h }) ps.half_edges }


/-- The staged global-vertex wrapper at an arena index (an `Rc` deref in the
code, so total here, with an inert default). -/
def gvWrapperAt (ps : PartialStore) (pid : Pid) :
    PartialWrapper PartialGlobalVertex GlobalVertex :=
  (lookupId pid ps.global_vertices).getD ⟨⟨none⟩, none⟩

/-- The staged curve wrapper at an arena index. -/
def cuWrapperAt (ps : PartialStore) (pid : Pid) :
    PartialWrapper PartialCurve Curve :=
  (lookupId pid ps.curves).getD ⟨(), none⟩

/-- The staged surface-vertex wrapper at an arena index. -/
def svWrapperAt (ps : PartialStore) (pid : Pid) :
    PartialWrapper PartialSurfaceVertex SurfaceVertex :=
  (lookupId pid ps.surface_vertices).getD ⟨⟨none, 0⟩, none⟩

/-- The staged global-edge wrapper at an arena index. -/
def geWrapperAt (ps : PartialStore) (pid : Pid) :
    PartialWrapper PartialGlobalEdge GlobalEdge :=
  (lookupId pid ps.global_edges).getD ⟨⟨(0, 0)⟩, none⟩

/-- The staged half-edge wrapper at an arena index. -/
def heWrapperAt (ps : PartialStore) (pid : Pid) :
    PartialWrapper PartialHalfEdge HalfEdge :=
  (lookupId pid ps.half_edges).getD ⟨⟨0, none, (0, 0), 0⟩, none⟩

/-- Modelled from the spec: `Partial::build` for a global vertex: if this
instance was already built return its handle, else build the staged value
(defaults for unset fields), insert it, and memoize the handle. -/
def buildPGV (pid : Pid) (s : BState) : Handle GlobalVertex × BState :=
  match (gvWrapperAt s.store pid).full with
  | some h => (h, s)
  | none =>
    let r := insertObject
      (GlobalVertex.new
        ((gvWrapperAt s.store pid).partialValue.position.getD (0, 0, 0)))
      s.objects.global_vertices
    (r.1, { store := setFullGV s.store pid r.1,
            objects := { s.objects with global_vertices := r.2 } })

/-- Modelled from the spec: `Partial::build` for a curve. -/
def buildPCurve (pid : Pid) (s : BState) : Handle Curve × BState :=
  match (cuWrapperAt s.store pid).full with
  | some h => (h, s)
  | none =>
    let r := insertObject () s.objects.curves
    (r.1, { store := setFullCU s.store pid r.1,
            objects := { s.objects with curves := r.2 } })

/-- Modelled from the spec: `Partial::build` for a surface vertex: children
first (the global form), then insert and memoize. -/
def buildPSV (pid : Pid) (s : BState) : Handle SurfaceVertex × BState :=
  match (svWrapperAt s.store pid).full with
  | some h => (h, s)
  | none =>
    let g := buildPGV (svWrapperAt s.store pid).partialValue.global_form s
    let r := insertObject
      (SurfaceVertex.new
        ((svWrapperAt s.store pid).partialValue.position.getD (0, 0)) g.1)
      g.2.objects.surface_vertices
    (r.1, { store := setFullSV g.2.store pid r.1,
            objects := { g.2.objects with surface_vertices := r.2 } })

/-- Modelled from the spec: `Partial::build` for a global edge. -/
def buildPGE (pid : Pid) (s : BState) : Handle GlobalEdge × BState :=
  match (geWrapperAt s.store pid).full with
  | some h => (h, s)
  | none =>
    let a := buildPGV (geWrapperAt s.store pid).partialValue.vertices.1 s
    let b := buildPGV (geWrapperAt s.store pid).partialValue.vertices.2 a.2
    let r := insertObject (GlobalEdge.mk (a.1, b.1))
      b.2.objects.global_edges
    (r.1, { store := setFullGE b.2.store pid r.1,
            objects := { b.2.objects with global_edges := r.2 } })

/-- Modelled from the spec: `Partial::build` for a half-edge: children first
(curve, surface vertices, global form), then insert and memoize. -/
def buildPHE (pid : Pid) (s : BState) : Handle HalfEdge × BState :=
  match (heWrapperAt s.store pid).full with
  | some h => (h, s)
  | none =>
    let cu := buildPCurve (heWrapperAt s.store pid).partialValue.curve s
    let v1 := buildPSV
      (heWrapperAt s.store pid).partialValue.surface_vertices.1 cu.2
    let v2 := buildPSV
      (heWrapperAt s.store pid).partialValue.surface_vertices.2 v1.2
    let g := buildPGE (heWrapperAt s.store pid).partialValue.global_form
      v2.2
    let r := insertObject
      (HalfEdge.new cu.1
        ((heWrapperAt s.store pid).partialValue.boundary.getD (0, 0))
        (v1.1, v2.1) g.1)
      g.2.objects.half_edges
    (r.1, { store := setFullHE g.2.store pid r.1,
            objects := { g.2.objects with half_edges := r.2 } })

/-- Build a list of staged half-edges, threading the state. -/
def buildPHEList : List Pid → BState → List (Handle HalfEdge) × BState
  | [], s => ([], s)
  | pid :: rest, s =>
    let r := buildPHE pid s
    let q := buildPHEList rest r.2
    (r.1 :: q.1, q.2)

/-- `PartialCycle::build` (from `partial/objects/cycle.rs`): build each
half-edge, then `Cycle::new`. -/
def buildPCycle (pc : PartialCycle) (s : BState) : Cycle × BState :=
  let r := buildPHEList pc.half_edges s
  (Cycle.new r.1, r.2)

/-- The round trip of the spec's test: snapshot a cycle with `from_full`
(fresh cache), mutate the boundary of the `k`-th staged half-edge, and
build. -/
def roundTrip (c : Cycle) (k : Nat) (b : Point1 × Point1)
    (objects : Objects) : Cycle × BState :=
  let r := fromFullCycle c PState.empty
  let mutated := updateHalfEdgeBoundary r.2.store (r.1.half_edges.getD k 0) b
  buildPCycle r.1 ⟨mutated, objects⟩

/-! ## Snapshot lemmas: invariants threaded through from_full -/

lemma lookupId_mem {α : Type} {k : Nat} {v : α} :
    ∀ {l : List (Nat × α)}, lookupId k l = some v → (k, v) ∈ l := by
  intro l
  induction l with
  | nil => intro h; cases h
  | cons p rest ih =>
    intro h
    rcases p with ⟨k0, v0⟩
    rw [lookupId_cons] at h
    by_cases hk : k = k0
    · subst hk
      rw [if_pos rfl] at h
      obtain rfl := Option.some.inj h
      exact List.mem_cons_self _ _
    · rw [if_neg hk] at h
      exact List.mem_cons_of_mem _ (ih h)

lemma lookupId_lt {α : Type} {l : List (Nat × α)} {n k : Nat} {v : α}
    (hwf : ∀ p ∈ l, p.1 < n) (h : lookupId k l = some v) : k < n :=
  hwf (k, v) (lookupId_mem h)

/-- Consing a binding at a fresh key (above every key of the list) preserves
every successful lookup. -/
lemma lookupId_cons_fresh {α : Type} {l : List (Nat × α)} {n : Nat} {w : α}
    (hwf : ∀ p ∈ l, p.1 < n) {k : Nat} {v : α}
    (h : lookupId k l = some v) : lookupId k ((n, w) :: l) = some v := by
  rw [lookupId_cons, if_neg (Nat.ne_of_lt (lookupId_lt hwf h))]
  exact h

lemma lookupId_head {α : Type} (n : Nat) (w : α) (l : List (Nat × α)) :
    lookupId n ((n, w) :: l) = some w := by
  rw [lookupId_cons, if_pos rfl]

lemma wf_bump {α : Type} {l : List (Nat × α)} {n : Nat}
    (hwf : ∀ p ∈ l, p.1 < n) : ∀ p ∈ l, p.1 < n + 1 :=
  fun p hp => Nat.lt_succ_of_lt (hwf p hp)

lemma wf_cons {α : Type} {l : List (Nat × α)} {n : Nat}
    (hwf : ∀ p ∈ l, p.1 < n) (w : α) :
    ∀ p ∈ (n, w) :: l, p.1 < n + 1 := by
  intro p hp
  rcases List.mem_cons.mp hp with rfl | hp
  · exact Nat.lt_succ_self _
  · exact Nat.lt_succ_of_lt (hwf p hp)

lemma updateAssoc_lookup {α : Type} (k k' : Nat) (f : α → α) :
    ∀ l : List (Nat × α),
      lookupId k' (updateAssoc k f l)
        = if k' = k then (lookupId k l).map f else lookupId k' l := by
  intro l
  induction l with
  | nil =>
    by_cases hk : k' = k <;> simp [updateAssoc, lookupId, hk]
  | cons p rest ih =>
    rcases p with ⟨k0, v0⟩
    unfold updateAssoc
    by_cases h0 : k0 = k
    · subst h0
      rw [if_pos rfl]
      by_cases hk : k' = k0
      · subst hk
        rw [if_pos rfl, lookupId_head, lookupId_head]
        rfl
      · rw [lookupId_cons, if_neg hk, if_neg hk, lookupId_cons, if_neg hk]
    · rw [if_neg h0]
      by_cases hk : k' = k0
      · subst hk
        rw [lookupId_head, if_neg h0, lookupId_head]
      · have hr : lookupId k ((k0, v0) :: rest) = lookupId k rest := by
          rw [lookupId_cons, if_neg (Ne.symm h0)]
        have hr2 : lookupId k' ((k0, v0) :: rest) = lookupId k' rest := by
          rw [lookupId_cons, if_neg hk]
        rw [lookupId_cons, if_neg hk, ih, hr, hr2]

/-- Identity coherence of a handle list: handles of the graph with equal
identities are equal (true of any store-derived graph). -/
def cohIds {α : Type} (L : List (Handle α)) : Prop :=
  ∀ h h', h ∈ L → h' ∈ L → h.id = h'.id → h = h'

/-- The surface-vertex handles reachable from a cycle's half-edges. -/
def svHandlesOf (c : Cycle) : List (Handle SurfaceVertex) :=
  c.half_edges.flatMap fun h =>
    [h.value.surface_vertices.1, h.value.surface_vertices.2]

/-- All arena keys are below the allocation counter. -/
def pwf (ps : PartialStore) : Prop :=
  (∀ p ∈ ps.curves, p.1 < ps.nextPid)
    ∧ (∀ p ∈ ps.global_vertices, p.1 < ps.nextPid)
    ∧ (∀ p ∈ ps.surface_vertices, p.1 < ps.nextPid)
    ∧ (∀ p ∈ ps.global_edges, p.1 < ps.nextPid)
    ∧ (∀ p ∈ ps.half_edges, p.1 < ps.nextPid)

/-- After a snapshot, no wrapper has been built yet. -/
def noneInvP (ps : PartialStore) : Prop :=
  (∀ p ∈ ps.curves, p.2.full = none)
    ∧ (∀ p ∈ ps.global_vertices, p.2.full = none)
    ∧ (∀ p ∈ ps.surface_vertices, p.2.full = none)
    ∧ (∀ p ∈ ps.global_edges, p.2.full = none)
    ∧ (∀ p ∈ ps.half_edges, p.2.full = none)

/-- Cached global-vertex identities point at live arena entries. -/
def pcsGV (s : PState) : Prop :=
  ∀ id pid, lookupId id s.cache.global_vertices = some pid →
    ∃ w, lookupId pid s.store.global_vertices = some w

/-- Cached surface-vertex identities point at live arena entries. -/
def pcsSV (s : PState) : Prop :=
  ∀ id pid, lookupId id s.cache.surface_vertices = some pid →
    ∃ w, lookupId pid s.store.surface_vertices = some w

/-- Cached half-edge identities point at live arena entries. -/
def pcsHE (s : PState) : Prop :=
  ∀ id pid, lookupId id s.cache.half_edges = some pid →
    ∃ w, lookupId pid s.store.half_edges = some w

/-- Staged surface vertices reference live staged global vertices. -/
def plinkSV (ps : PartialStore) : Prop :=
  ∀ pid w, lookupId pid ps.surface_vertices = some w →
    ∃ wg, lookupId w.partialValue.global_form ps.global_vertices = some wg

/-- Staged half-edges reference live staged surface vertices. -/
def plinkHE (ps : PartialStore) : Prop :=
  ∀ pid w, lookupId pid ps.half_edges = some w →
    (∃ w1, lookupId w.partialValue.surface_vertices.1 ps.surface_vertices
        = some w1)
      ∧ (∃ w2, lookupId w.partialValue.surface_vertices.2
          ps.surface_vertices = some w2)

/-- The cache entry of a snapshotted surface vertex leads to an arena entry
whose staged global form is the cache entry of the vertex's global form. -/
def svLinkInv (SV : List (Handle SurfaceVertex)) (s : PState) : Prop :=
  ∀ h pid, h ∈ SV → lookupId h.id s.cache.surface_vertices = some pid →
    ∃ w, lookupId pid s.store.surface_vertices = some w
      ∧ lookupId h.value.global_form.id s.cache.global_vertices
        = some w.partialValue.global_form

/-- The cache entry of a snapshotted half-edge leads to an arena entry whose
staged surface vertices are the cache entries of the handle's surface
vertices. -/
def heLinkInv (HE : List (Handle HalfEdge)) (s : PState) : Prop :=
  ∀ h pid, h ∈ HE → lookupId h.id s.cache.half_edges = some pid →
    ∃ w, lookupId pid s.store.half_edges = some w
      ∧ lookupId h.value.surface_vertices.1.id s.cache.surface_vertices
        = some w.partialValue.surface_vertices.1
      ∧ lookupId h.value.surface_vertices.2.id s.cache.surface_vertices
        = some w.partialValue.surface_vertices.2

/-- The bundle of invariants a snapshot maintains. -/
structure SnapOk (SV : List (Handle SurfaceVertex))
    (HE : List (Handle HalfEdge)) (s : PState) : Prop where
  wf : pwf s.store
  non : noneInvP s.store
  csGV : pcsGV s
  csSV : pcsSV s
  csHE : pcsHE s
  lsv : plinkSV s.store
  lhe : plinkHE s.store
  svL : svLinkInv SV s
  heL : heLinkInv HE s

/-- Snapshot monotonicity: every successful cache or arena lookup stays
valid with the same result. -/
structure PLe (s s' : PState) : Prop where
  ccu : ∀ k v, lookupId k s.cache.curves = some v →
    lookupId k s'.cache.curves = some v
  cgv : ∀ k v, lookupId k s.cache.global_vertices = some v →
    lookupId k s'.cache.global_vertices = some v
  csv : ∀ k v, lookupId k s.cache.surface_vertices = some v →
    lookupId k s'.cache.surface_vertices = some v
  cge : ∀ k v, lookupId k s.cache.global_edges = some v →
    lookupId k s'.cache.global_edges = some v
  che : ∀ k v, lookupId k s.cache.half_edges = some v →
    lookupId k s'.cache.half_edges = some v
  scu : ∀ k w, lookupId k s.store.curves = some w →
    lookupId k s'.store.curves = some w
  sgv : ∀ k w, lookupId k s.store.global_vertices = some w →
    lookupId k s'.store.global_vertices = some w
  ssv : ∀ k w, lookupId k s.store.surface_vertices = some w →
    lookupId k s'.store.surface_vertices = some w
  sge : ∀ k w, lookupId k s.store.global_edges = some w →
    lookupId k s'.store.global_edges = some w
  she : ∀ k w, lookupId k s.store.half_edges = some w →
    lookupId k s'.store.half_edges = some w

lemma PLe.rfl (s : PState) : PLe s s :=
  ⟨fun _ _ h => h, fun _ _ h => h, fun _ _ h => h, fun _ _ h => h,
    fun _ _ h => h, fun _ _ h => h, fun _ _ h => h, fun _ _ h => h,
    fun _ _ h => h, fun _ _ h => h⟩

lemma PLe.ptrans {a b c : PState} (h1 : PLe a b) (h2 : PLe b c) : PLe a c :=
  ⟨fun k v h => h2.ccu k v (h1.ccu k v h),
    fun k v h => h2.cgv k v (h1.cgv k v h),
    fun k v h => h2.csv k v (h1.csv k v h),
    fun k v h => h2.cge k v (h1.cge k v h),
    fun k v h => h2.che k v (h1.che k v h),
    fun k w h => h2.scu k w (h1.scu k w h),
    fun k w h => h2.sgv k w (h1.sgv k w h),
    fun k w h => h2.ssv k w (h1.ssv k w h),
    fun k w h => h2.sge k w (h1.sge k w h),
    fun k w h => h2.she k w (h1.she k w h)⟩

/-- The initial state satisfies every snapshot invariant. -/
lemma SnapOk.empty (SV : List (Handle SurfaceVertex))
    (HE : List (Handle HalfEdge)) : SnapOk SV HE PState.empty := by
  refine ⟨⟨?_, ?_, ?_, ?_, ?_⟩, ⟨?_, ?_, ?_, ?_, ?_⟩, ?_, ?_, ?_, ?_, ?_,
    ?_, ?_⟩ <;>
    first
      | (intro a b hmem hl;
         simp [PState.empty, PartialStore.empty, FullToPartialCache.empty,
           lookupId] at hl)
      | (intro a b h;
         simp [PState.empty, PartialStore.empty, FullToPartialCache.empty,
           lookupId] at h)
      | (intro p hp; cases hp)

lemma fromFullCurve_hit {h : Handle Curve} {s : PState} {pid0 : Pid}
    (hm : lookupId h.id s.cache.curves = some pid0) :
    fromFullCurve h s = (pid0, s) := by
  unfold fromFullCurve
  rw [hm]

lemma fromFullCurve_miss {h : Handle Curve} {s : PState}
    (hm : lookupId h.id s.cache.curves = none) :
    fromFullCurve h s
      = (s.store.nextPid,
        { store :=
            { s.store with
              nextPid := s.store.nextPid + 1,
              curves := (s.store.nextPid, ⟨(), none⟩) :: s.store.curves },
          cache :=
            { s.cache with
              curves := (h.id, s.store.nextPid) :: s.cache.curves } }) := by
  unfold fromFullCurve
  rw [hm]

lemma fromFullCurve_spec (h : Handle Curve) (s : PState)
    (SV : List (Handle SurfaceVertex)) (HE : List (Handle HalfEdge))
    (hok : SnapOk SV HE s) :
    SnapOk SV HE (fromFullCurve h s).2 ∧ PLe s (fromFullCurve h s).2 := by
  rcases hm : lookupId h.id s.cache.curves with _ | pid0
  · rw [fromFullCurve_miss hm]
    constructor
    · refine ⟨⟨wf_cons hok.wf.1 _, wf_bump hok.wf.2.1, wf_bump hok.wf.2.2.1,
        wf_bump hok.wf.2.2.2.1, wf_bump hok.wf.2.2.2.2⟩,
        ⟨?_, hok.non.2.1, hok.non.2.2.1, hok.non.2.2.2.1,
          hok.non.2.2.2.2⟩,
        hok.csGV, hok.csSV, hok.csHE, hok.lsv, hok.lhe, hok.svL, hok.heL⟩
      intro p hp
      rcases List.mem_cons.mp hp with rfl | hp
      · rfl
      · exact hok.non.1 p hp
    · exact ⟨fun k v hk => lookupId_cons_preserve hm hk,
        fun k v hk => hk, fun k v hk => hk, fun k v hk => hk,
        fun k v hk => hk,
        fun k w hk => lookupId_cons_fresh hok.wf.1 hk,
        fun k w hk => hk, fun k w hk => hk, fun k w hk => hk,
        fun k w hk => hk⟩
  · rw [fromFullCurve_hit hm]
    exact ⟨hok, PLe.rfl s⟩

lemma fromFullGV_hit {h : Handle GlobalVertex} {s : PState} {pid0 : Pid}
    (hm : lookupId h.id s.cache.global_vertices = some pid0) :
    fromFullGV h s = (pid0, s) := by
  unfold fromFullGV
  rw [hm]

lemma fromFullGV_miss {h : Handle GlobalVertex} {s : PState}
    (hm : lookupId h.id s.cache.global_vertices = none) :
    fromFullGV h s
      = (s.store.nextPid,
        { store :=
            { s.store with
              nextPid := s.store.nextPid + 1,
              global_vertices :=
                (s.store.nextPid, ⟨⟨some h.value.position⟩, none⟩)
                  :: s.store.global_vertices },
          cache :=
            { s.cache with
              global_vertices :=
                (h.id, s.store.nextPid) :: s.cache.global_vertices } }) := by
  unfold fromFullGV
  rw [hm]

lemma fromFullGV_spec (h : Handle GlobalVertex) (s : PState)
    (SV : List (Handle SurfaceVertex)) (HE : List (Handle HalfEdge))
    (hok : SnapOk SV HE s) :
    SnapOk SV HE (fromFullGV h s).2 ∧ PLe s (fromFullGV h s).2
      ∧ lookupId h.id (fromFullGV h s).2.cache.global_vertices
          = some (fromFullGV h s).1
      ∧ ∃ w, lookupId (fromFullGV h s).1
          (fromFullGV h s).2.store.global_vertices = some w := by
  rcases hm : lookupId h.id s.cache.global_vertices with _ | pid0
  · rw [fromFullGV_miss hm]
    refine ⟨?_, ?_, lookupId_head _ _ _, ⟨_, lookupId_head _ _ _⟩⟩
    · refine ⟨⟨wf_bump hok.wf.1, wf_cons hok.wf.2.1 _,
        wf_bump hok.wf.2.2.1, wf_bump hok.wf.2.2.2.1,
        wf_bump hok.wf.2.2.2.2⟩,
        ⟨hok.non.1, ?_, hok.non.2.2.1, hok.non.2.2.2.1, hok.non.2.2.2.2⟩,
        ?_, hok.csSV, hok.csHE, ?_, hok.lhe, ?_, hok.heL⟩
      · intro p hp
        rcases List.mem_cons.mp hp with rfl | hp
        · rfl
        · exact hok.non.2.1 p hp
      · intro id pid hl
        rw [lookupId_cons] at hl
        by_cases hid : id = h.id
        · rw [if_pos hid] at hl
          obtain rfl := Option.some.inj hl
          exact ⟨_, lookupId_head _ _ _⟩
        · rw [if_neg hid] at hl
          obtain ⟨w, hw⟩ := hok.csGV id pid hl
          exact ⟨w, lookupId_cons_fresh hok.wf.2.1 hw⟩
      · intro pid w hl
        obtain ⟨wg, hwg⟩ := hok.lsv pid w hl
        exact ⟨wg, lookupId_cons_fresh hok.wf.2.1 hwg⟩
      · intro h₂ pid hmem hl
        obtain ⟨w, hw, hg⟩ := hok.svL h₂ pid hmem hl
        exact ⟨w, hw, lookupId_cons_preserve hm hg⟩
    · exact ⟨fun k v hk => hk,
        fun k v hk => lookupId_cons_preserve hm hk,
        fun k v hk => hk, fun k v hk => hk, fun k v hk => hk,
        fun k w hk => hk,
        fun k w hk => lookupId_cons_fresh hok.wf.2.1 hk,
        fun k w hk => hk, fun k w hk => hk, fun k w hk => hk⟩
  · rw [fromFullGV_hit hm]
    exact ⟨hok, PLe.rfl s, hm, hok.csGV h.id pid0 hm⟩

/-- Submaps `fromFullGV` does not touch. -/
lemma fromFullGV_pres (h : Handle GlobalVertex) (s : PState) :
    ((fromFullGV h s).2.cache.curves = s.cache.curves)
      ∧ ((fromFullGV h s).2.cache.surface_vertices
          = s.cache.surface_vertices)
      ∧ ((fromFullGV h s).2.cache.global_edges = s.cache.global_edges)
      ∧ ((fromFullGV h s).2.cache.half_edges = s.cache.half_edges)
      ∧ ((fromFullGV h s).2.store.curves = s.store.curves)
      ∧ ((fromFullGV h s).2.store.surface_vertices
          = s.store.surface_vertices)
      ∧ ((fromFullGV h s).2.store.global_edges = s.store.global_edges)
      ∧ ((fromFullGV h s).2.store.half_edges = s.store.half_edges) := by
  rcases hm : lookupId h.id s.cache.global_vertices with _ | pid0
  · rw [fromFullGV_miss hm]
    exact ⟨rfl, rfl, rfl, rfl, rfl, rfl, rfl, rfl⟩
  · rw [fromFullGV_hit hm]
    exact ⟨rfl, rfl, rfl, rfl, rfl, rfl, rfl, rfl⟩

/-- Submaps `fromFullCurve` does not touch. -/
lemma fromFullCurve_pres (h : Handle Curve) (s : PState) :
    ((fromFullCurve h s).2.cache.global_vertices
        = s.cache.global_vertices)
      ∧ ((fromFullCurve h s).2.cache.surface_vertices
          = s.cache.surface_vertices)
      ∧ ((fromFullCurve h s).2.cache.global_edges = s.cache.global_edges)
      ∧ ((fromFullCurve h s).2.cache.half_edges = s.cache.half_edges)
      ∧ ((fromFullCurve h s).2.store.global_vertices
          = s.store.global_vertices)
      ∧ ((fromFullCurve h s).2.store.surface_vertices
          = s.store.surface_vertices)
      ∧ ((fromFullCurve h s).2.store.global_edges = s.store.global_edges)
      ∧ ((fromFullCurve h s).2.store.half_edges = s.store.half_edges) := by
  rcases hm : lookupId h.id s.cache.curves with _ | pid0
  · rw [fromFullCurve_miss hm]
    exact ⟨rfl, rfl, rfl, rfl, rfl, rfl, rfl, rfl⟩
  · rw [fromFullCurve_hit hm]
    exact ⟨rfl, rfl, rfl, rfl, rfl, rfl, rfl, rfl⟩

lemma fromFullSV_hit {h : Handle SurfaceVertex} {s : PState} {pid0 : Pid}
    (hm : lookupId h.id s.cache.surface_vertices = some pid0) :
    fromFullSV h s = (pid0, s) := by
  unfold fromFullSV
  rw [hm]

lemma fromFullSV_miss {h : Handle SurfaceVertex} {s : PState}
    (hm : lookupId h.id s.cache.surface_vertices = none) :
    fromFullSV h s
      = ((fromFullGV h.value.global_form s).2.store.nextPid,
        { store :=
            { (fromFullGV h.value.global_form s).2.store with
              nextPid :=
                (fromFullGV h.value.global_form s).2.store.nextPid + 1,
              surface_vertices :=
                ((fromFullGV h.value.global_form s).2.store.nextPid,
                  ⟨⟨some h.value.position,
                      (fromFullGV h.value.global_form s).1⟩, none⟩)
                  :: (fromFullGV h.value.global_form
                      s).2.store.surface_vertices },
          cache :=
            { (fromFullGV h.value.global_form s).2.cache with
              surface_vertices :=
                (h.id, (fromFullGV h.value.global_form s).2.store.nextPid)
                  :: (fromFullGV h.value.global_form
                      s).2.cache.surface_vertices } }) := by
  unfold fromFullSV
  rw [hm]

lemma fromFullSV_spec (h : Handle SurfaceVertex) (s : PState)
    (SV : List (Handle SurfaceVertex)) (HE : List (Handle HalfEdge))
    (hmem : h ∈ SV) (hcoh : cohIds SV) (hok : SnapOk SV HE s) :
    SnapOk SV HE (fromFullSV h s).2 ∧ PLe s (fromFullSV h s).2
      ∧ lookupId h.id (fromFullSV h s).2.cache.surface_vertices
          = some (fromFullSV h s).1 := by
  rcases hm : lookupId h.id s.cache.surface_vertices with _ | pid0
  · obtain ⟨hok1, hle1, hgv, wg, hwg⟩ :=
      fromFullGV_spec h.value.global_form s SV HE hok
    have hpres := fromFullGV_pres h.value.global_form s
    have hguard : lookupId h.id
        (fromFullGV h.value.global_form s).2.cache.surface_vertices
        = none := by rw [hpres.2.1]; exact hm
    rw [fromFullSV_miss hm]
    refine ⟨?_, ?_, lookupId_head _ _ _⟩
    · refine ⟨⟨wf_bump hok1.wf.1, wf_bump hok1.wf.2.1,
        wf_cons hok1.wf.2.2.1 _, wf_bump hok1.wf.2.2.2.1,
        wf_bump hok1.wf.2.2.2.2⟩,
        ⟨hok1.non.1, hok1.non.2.1, ?_, hok1.non.2.2.2.1,
          hok1.non.2.2.2.2⟩,
        hok1.csGV, ?_, hok1.csHE, ?_, ?_, ?_, ?_⟩
      · intro p hp
        rcases List.mem_cons.mp hp with rfl | hp
        · rfl
        · exact hok1.non.2.2.1 p hp
      · intro id pid hl
        rw [lookupId_cons] at hl
        by_cases hid : id = h.id
        · rw [if_pos hid] at hl
          obtain rfl := Option.some.inj hl
          exact ⟨_, lookupId_head _ _ _⟩
        · rw [if_neg hid] at hl
          obtain ⟨w, hw⟩ := hok1.csSV id pid hl
          exact ⟨w, lookupId_cons_fresh hok1.wf.2.2.1 hw⟩
      · intro pid w hl
        rw [lookupId_cons] at hl
        by_cases hid : pid = (fromFullGV h.value.global_form
            s).2.store.nextPid
        · rw [if_pos hid] at hl
          obtain rfl := (Option.some.inj hl).symm
          exact ⟨wg, hwg⟩
        · rw [if_neg hid] at hl
          exact hok1.lsv pid w hl
      · intro pid w hl
        obtain ⟨⟨w1, h1⟩, ⟨w2, h2⟩⟩ := hok1.lhe pid w hl
        exact ⟨⟨w1, lookupId_cons_fresh hok1.wf.2.2.1 h1⟩,
          ⟨w2, lookupId_cons_fresh hok1.wf.2.2.1 h2⟩⟩
      · intro h₂ pid hmem₂ hl
        rw [lookupId_cons] at hl
        by_cases hid : h₂.id = h.id
        · rw [if_pos hid] at hl
          obtain rfl := Option.some.inj hl
          obtain rfl := hcoh h₂ h hmem₂ hmem hid
          exact ⟨_, lookupId_head _ _ _, hgv⟩
        · rw [if_neg hid] at hl
          obtain ⟨w, hw, hg⟩ := hok1.svL h₂ pid hmem₂ hl
          exact ⟨w, lookupId_cons_fresh hok1.wf.2.2.1 hw, hg⟩
      · intro h₂ pid hmem₂ hl
        obtain ⟨w, hw, h1, h2⟩ := hok1.heL h₂ pid hmem₂ hl
        exact ⟨w, hw, lookupId_cons_preserve hguard h1,
          lookupId_cons_preserve hguard h2⟩
    · refine PLe.ptrans hle1 ⟨fun k v hk => hk, fun k v hk => hk,
        fun k v hk => lookupId_cons_preserve hguard hk,
        fun k v hk => hk, fun k v hk => hk, fun k w hk => hk,
        fun k w hk => hk,
        fun k w hk => lookupId_cons_fresh hok1.wf.2.2.1 hk,
        fun k w hk => hk, fun k w hk => hk⟩
  · rw [fromFullSV_hit hm]
    exact ⟨hok, PLe.rfl s, hm⟩

/-- Submaps `fromFullSV` does not touch. -/
lemma fromFullSV_pres (h : Handle SurfaceVertex) (s : PState) :
    ((fromFullSV h s).2.cache.curves = s.cache.curves)
      ∧ ((fromFullSV h s).2.cache.global_edges = s.cache.global_edges)
      ∧ ((fromFullSV h s).2.cache.half_edges = s.cache.half_edges)
      ∧ ((fromFullSV h s).2.store.curves = s.store.curves)
      ∧ ((fromFullSV h s).2.store.global_edges = s.store.global_edges)
      ∧ ((fromFullSV h s).2.store.half_edges = s.store.half_edges) := by
  rcases hm : lookupId h.id s.cache.surface_vertices with _ | pid0
  · rw [fromFullSV_miss hm]
    have hp := fromFullGV_pres h.value.global_form s
    exact ⟨hp.1, hp.2.2.1, hp.2.2.2.1, hp.2.2.2.2.1, hp.2.2.2.2.2.2.1,
      hp.2.2.2.2.2.2.2⟩
  · rw [fromFullSV_hit hm]
    exact ⟨rfl, rfl, rfl, rfl, rfl, rfl⟩

lemma fromFullGE_hit {h : Handle GlobalEdge} {s : PState} {pid0 : Pid}
    (hm : lookupId h.id s.cache.global_edges = some pid0) :
    fromFullGE h s = (pid0, s) := by
  unfold fromFullGE
  rw [hm]

lemma fromFullGE_miss {h : Handle GlobalEdge} {s : PState}
    (hm : lookupId h.id s.cache.global_edges = none) :
    fromFullGE h s
      = ((fromFullGV h.value.vertices.2
            (fromFullGV h.value.vertices.1 s).2).2.store.nextPid,
        { store :=
            { (fromFullGV h.value.vertices.2
                (fromFullGV h.value.vertices.1 s).2).2.store with
              nextPid :=
                (fromFullGV h.value.vertices.2
                  (fromFullGV h.value.vertices.1
                    s).2).2.store.nextPid + 1,
              global_edges :=
                ((fromFullGV h.value.vertices.2
                    (fromFullGV h.value.vertices.1 s).2).2.store.nextPid,
                  ⟨⟨((fromFullGV h.value.vertices.1 s).1,
                      (fromFullGV h.value.vertices.2
                        (fromFullGV h.value.vertices.1 s).2).1)⟩, none⟩)
                  :: (fromFullGV h.value.vertices.2
                      (fromFullGV h.value.vertices.1
                        s).2).2.store.global_edges },
          cache :=
            { (fromFullGV h.value.vertices.2
                (fromFullGV h.value.vertices.1 s).2).2.cache with
              global_edges :=
                (h.id,
                  (fromFullGV h.value.vertices.2
                    (fromFullGV h.value.vertices.1 s).2).2.store.nextPid)
                  :: (fromFullGV h.value.vertices.2
                      (fromFullGV h.value.vertices.1
                        s).2).2.cache.global_edges } }) := by
  unfold fromFullGE
  rw [hm]

lemma fromFullGE_spec (h : Handle GlobalEdge) (s : PState)
    (SV : List (Handle SurfaceVertex)) (HE : List (Handle HalfEdge))
    (hok : SnapOk SV HE s) :
    SnapOk SV HE (fromFullGE h s).2 ∧ PLe s (fromFullGE h s).2 := by
  rcases hm : lookupId h.id s.cache.global_edges with _ | pid0
  · obtain ⟨hok1, hle1, _, _⟩ := fromFullGV_spec h.value.vertices.1 s SV HE
      hok
    obtain ⟨hok2, hle2, _, _⟩ := fromFullGV_spec h.value.vertices.2
      (fromFullGV h.value.vertices.1 s).2 SV HE hok1
    have hguard : lookupId h.id
        (fromFullGV h.value.vertices.2
          (fromFullGV h.value.vertices.1 s).2).2.cache.global_edges
        = none := by
      rw [(fromFullGV_pres h.value.vertices.2 _).2.2.1,
        (fromFullGV_pres h.value.vertices.1 s).2.2.1]
      exact hm
    rw [fromFullGE_miss hm]
    constructor
    · refine ⟨⟨wf_bump hok2.wf.1, wf_bump hok2.wf.2.1,
        wf_bump hok2.wf.2.2.1, wf_cons hok2.wf.2.2.2.1 _,
        wf_bump hok2.wf.2.2.2.2⟩,
        ⟨hok2.non.1, hok2.non.2.1, hok2.non.2.2.1, ?_,
          hok2.non.2.2.2.2⟩,
        hok2.csGV, hok2.csSV, hok2.csHE, hok2.lsv, hok2.lhe, hok2.svL,
        hok2.heL⟩
      intro p hp
      rcases List.mem_cons.mp hp with rfl | hp
      · rfl
      · exact hok2.non.2.2.2.1 p hp
    · refine PLe.ptrans hle1 (PLe.ptrans hle2 ⟨fun k v hk => hk,
        fun k v hk => hk, fun k v hk => hk,
        fun k v hk => lookupId_cons_preserve hguard hk,
        fun k v hk => hk, fun k w hk => hk, fun k w hk => hk,
        fun k w hk => hk,
        fun k w hk => lookupId_cons_fresh hok2.wf.2.2.2.1 hk,
        fun k w hk => hk⟩)
  · rw [fromFullGE_hit hm]
    exact ⟨hok, PLe.rfl s⟩

/-- Submaps `fromFullGE` does not touch. -/
lemma fromFullGE_pres (h : Handle GlobalEdge) (s : PState) :
    ((fromFullGE h s).2.cache.curves = s.cache.curves)
      ∧ ((fromFullGE h s).2.cache.surface_vertices
          = s.cache.surface_vertices)
      ∧ ((fromFullGE h s).2.cache.half_edges = s.cache.half_edges)
      ∧ ((fromFullGE h s).2.store.curves = s.store.curves)
      ∧ ((fromFullGE h s).2.store.surface_vertices
          = s.store.surface_vertices)
      ∧ ((fromFullGE h s).2.store.half_edges = s.store.half_edges) := by
  rcases hm : lookupId h.id s.cache.global_edges with _ | pid0
  · rw [fromFullGE_miss hm]
    have h1 := fromFullGV_pres h.value.vertices.1 s
    have h2 := fromFullGV_pres h.value.vertices.2
      (fromFullGV h.value.vertices.1 s).2
    exact ⟨h2.1.trans h1.1, (h2.2.1).trans h1.2.1,
      (h2.2.2.2.1).trans h1.2.2.2.1, (h2.2.2.2.2.1).trans h1.2.2.2.2.1,
      (h2.2.2.2.2.2.1).trans h1.2.2.2.2.2.1,
      (h2.2.2.2.2.2.2.2).trans h1.2.2.2.2.2.2.2⟩
  · rw [fromFullGE_hit hm]
    exact ⟨rfl, rfl, rfl, rfl, rfl, rfl⟩

/-- The state after snapshotting a half-edge's children (curve, surface
vertices, global form), in source order. -/
def heSnapState (h : Handle HalfEdge) (s : PState) : PState :=
  (fromFullGE h.value.global_form
    (fromFullSV h.value.surface_vertices.2
      (fromFullSV h.value.surface_vertices.1
        (fromFullCurve h.value.curve s).2).2).2).2

/-- The staged half-edge recorded on a cache miss. -/
def heSnapWrapper (h : Handle HalfEdge) (s : PState) :
    PartialWrapper PartialHalfEdge HalfEdge :=
  ⟨⟨(fromFullCurve h.value.curve s).1,
      some h.value.boundary,
      ((fromFullSV h.value.surface_vertices.1
          (fromFullCurve h.value.curve s).2).1,
        (fromFullSV h.value.surface_vertices.2
          (fromFullSV h.value.surface_vertices.1
            (fromFullCurve h.value.curve s).2).2).1),
      (fromFullGE h.value.global_form
        (fromFullSV h.value.surface_vertices.2
          (fromFullSV h.value.surface_vertices.1
            (fromFullCurve h.value.curve s).2).2).2).1⟩, none⟩

lemma fromFullHE_hit {h : Handle HalfEdge} {s : PState} {pid0 : Pid}
    (hm : lookupId h.id s.cache.half_edges = some pid0) :
    fromFullHE h s = (pid0, s) := by
  unfold fromFullHE
  rw [hm]

lemma fromFullHE_miss {h : Handle HalfEdge} {s : PState}
    (hm : lookupId h.id s.cache.half_edges = none) :
    fromFullHE h s
      = ((heSnapState h s).store.nextPid,
        { store :=
            { (heSnapState h s).store with
              nextPid := (heSnapState h s).store.nextPid + 1,
              half_edges :=
                ((heSnapState h s).store.nextPid, heSnapWrapper h s)
                  :: (heSnapState h s).store.half_edges },
          cache :=
            { (heSnapState h s).cache with
              half_edges :=
                (h.id, (heSnapState h s).store.nextPid)
                  :: (heSnapState h s).cache.half_edges } }) := by
  unfold fromFullHE heSnapState heSnapWrapper
  rw [hm]

lemma fromFullHE_spec (h : Handle HalfEdge) (s : PState)
    (SV : List (Handle SurfaceVertex)) (HE : List (Handle HalfEdge))
    (hmem : h ∈ HE) (hcohHE : cohIds HE) (hcohSV : cohIds SV)
    (hsv1 : h.value.surface_vertices.1 ∈ SV)
    (hsv2 : h.value.surface_vertices.2 ∈ SV)
    (hok : SnapOk SV HE s) :
    SnapOk SV HE (fromFullHE h s).2 ∧ PLe s (fromFullHE h s).2
      ∧ lookupId h.id (fromFullHE h s).2.cache.half_edges
          = some (fromFullHE h s).1 := by
  rcases hm : lookupId h.id s.cache.half_edges with _ | pid0
  · obtain ⟨hokc, hlec⟩ := fromFullCurve_spec h.value.curve s SV HE hok
    obtain ⟨hok1, hle1, hco1⟩ := fromFullSV_spec h.value.surface_vertices.1
      (fromFullCurve h.value.curve s).2 SV HE hsv1 hcohSV hokc
    obtain ⟨hok2, hle2, hco2⟩ := fromFullSV_spec h.value.surface_vertices.2
      (fromFullSV h.value.surface_vertices.1
        (fromFullCurve h.value.curve s).2).2 SV HE hsv2 hcohSV hok1
    obtain ⟨hok3, hle3⟩ := fromFullGE_spec h.value.global_form
      (fromFullSV h.value.surface_vertices.2
        (fromFullSV h.value.surface_vertices.1
          (fromFullCurve h.value.curve s).2).2).2 SV HE hok2
    have hguard : lookupId h.id (heSnapState h s).cache.half_edges
        = none := by
      show lookupId h.id (fromFullGE _ _).2.cache.half_edges = none
      rw [(fromFullGE_pres _ _).2.2.1, (fromFullSV_pres _ _).2.2.1,
        (fromFullSV_pres _ _).2.2.1, (fromFullCurve_pres _ _).2.2.2.1]
      exact hm
    have hlk1 : lookupId h.value.surface_vertices.1.id
        (heSnapState h s).cache.surface_vertices
        = some (heSnapWrapper h s).partialValue.surface_vertices.1 := by
      show lookupId _ (fromFullGE _ _).2.cache.surface_vertices = _
      exact hle3.csv _ _ (hle2.csv _ _ hco1)
    have hlk2 : lookupId h.value.surface_vertices.2.id
        (heSnapState h s).cache.surface_vertices
        = some (heSnapWrapper h s).partialValue.surface_vertices.2 := by
      show lookupId _ (fromFullGE _ _).2.cache.surface_vertices = _
      exact hle3.csv _ _ hco2
    rw [fromFullHE_miss hm]
    refine ⟨?_, ?_, lookupId_head _ _ _⟩
    · refine ⟨⟨wf_bump hok3.wf.1, wf_bump hok3.wf.2.1,
        wf_bump hok3.wf.2.2.1, wf_bump hok3.wf.2.2.2.1,
        wf_cons hok3.wf.2.2.2.2 _⟩,
        ⟨hok3.non.1, hok3.non.2.1, hok3.non.2.2.1, hok3.non.2.2.2.1, ?_⟩,
        hok3.csGV, hok3.csSV, ?_, hok3.lsv, ?_, hok3.svL, ?_⟩
      · intro p hp
        rcases List.mem_cons.mp hp with rfl | hp
        · rfl
        · exact hok3.non.2.2.2.2 p hp
      · intro id pid hl
        rw [lookupId_cons] at hl
        by_cases hid : id = h.id
        · rw [if_pos hid] at hl
          obtain rfl := Option.some.inj hl
          exact ⟨_, lookupId_head _ _ _⟩
        · rw [if_neg hid] at hl
          obtain ⟨w, hw⟩ := hok3.csHE id pid hl
          exact ⟨w, lookupId_cons_fresh hok3.wf.2.2.2.2 hw⟩
      · intro pid w hl
        rw [lookupId_cons] at hl
        by_cases hid : pid = (heSnapState h s).store.nextPid
        · rw [if_pos hid] at hl
          obtain rfl := (Option.some.inj hl).symm
          exact ⟨hok3.csSV _ _ hlk1, hok3.csSV _ _ hlk2⟩
        · rw [if_neg hid] at hl
          exact hok3.lhe pid w hl
      · intro h₂ pid hmem₂ hl
        rw [lookupId_cons] at hl
        by_cases hid : h₂.id = h.id
        · rw [if_pos hid] at hl
          obtain rfl := Option.some.inj hl
          obtain rfl := hcohHE h₂ h hmem₂ hmem hid
          exact ⟨heSnapWrapper h₂ s, lookupId_head _ _ _, hlk1, hlk2⟩
        · rw [if_neg hid] at hl
          obtain ⟨w, hw, h1, h2⟩ := hok3.heL h₂ pid hmem₂ hl
          exact ⟨w, lookupId_cons_fresh hok3.wf.2.2.2.2 hw, h1, h2⟩
    · refine PLe.ptrans hlec (PLe.ptrans hle1 (PLe.ptrans hle2
        (PLe.ptrans hle3 ⟨fun k v hk => hk, fun k v hk => hk,
          fun k v hk => hk, fun k v hk => hk,
          fun k v hk => lookupId_cons_preserve hguard hk,
          fun k w hk => hk, fun k w hk => hk, fun k w hk => hk,
          fun k w hk => hk,
          fun k w hk => lookupId_cons_fresh hok3.wf.2.2.2.2 hk⟩)))
  · rw [fromFullHE_hit hm]
    exact ⟨hok, PLe.rfl s, hm⟩

/-- Snapshotting a list of half-edges: invariants are preserved, the state
only grows, and the final cache binds every input handle's identity to the
corresponding output wrapper instance. -/
lemma fromFullHEList_spec (SV : List (Handle SurfaceVertex))
    (HE : List (Handle HalfEdge)) (hcohHE : cohIds HE)
    (hcohSV : cohIds SV) :
    ∀ (l : List (Handle HalfEdge)) (s : PState),
      (∀ h ∈ l, h ∈ HE) →
      (∀ h ∈ l, h.value.surface_vertices.1 ∈ SV
        ∧ h.value.surface_vertices.2 ∈ SV) →
      SnapOk SV HE s →
      SnapOk SV HE (fromFullHEList l s).2 ∧ PLe s (fromFullHEList l s).2
        ∧ ∀ (k : Nat) (hk : Handle HalfEdge) (pidk : Pid),
            l[k]? = some hk → (fromFullHEList l s).1[k]? = some pidk →
            lookupId hk.id (fromFullHEList l s).2.cache.half_edges
              = some pidk := by
  intro l
  induction l with
  | nil =>
    intro s _ _ hok
    refine ⟨hok, PLe.rfl s, ?_⟩
    intro k hk pidk h1 _
    simp [fromFullHEList] at h1
  | cons hd tl ih =>
    intro s hsub hsv hok
    have hstep := fromFullHE_spec hd s SV HE (hsub hd (by simp)) hcohHE
      hcohSV (hsv hd (by simp)).1 (hsv hd (by simp)).2 hok
    have hrest := ih (fromFullHE hd s).2
      (fun h hh => hsub h (by simp [hh]))
      (fun h hh => hsv h (by simp [hh])) hstep.1
    have hfold : fromFullHEList (hd :: tl) s
        = ((fromFullHE hd s).1
            :: (fromFullHEList tl (fromFullHE hd s).2).1,
          (fromFullHEList tl (fromFullHE hd s).2).2) := rfl
    rw [hfold]
    refine ⟨hrest.1, PLe.ptrans hstep.2.1 hrest.2.1, ?_⟩
    intro k hk pidk h1 h2
    cases k with
    | zero =>
      rw [List.getElem?_cons_zero] at h1 h2
      obtain rfl := Option.some.inj h1
      obtain rfl := Option.some.inj h2
      exact hrest.2.1.che _ _ hstep.2.2
    | succ n =>
      rw [List.getElem?_cons_succ] at h1 h2
      exact hrest.2.2 n hk pidk h1 h2

/-- The staged global-vertex instance reached from a staged half-edge
through its first (start) surface vertex. -/
def svGvPidFst (ps : PartialStore) (hepid : Pid) : Option Pid :=
  (lookupId hepid ps.half_edges).bind fun w =>
    (lookupId w.partialValue.surface_vertices.1 ps.surface_vertices).bind
      fun wsv => some wsv.partialValue.global_form

/-- The staged global-vertex instance reached from a staged half-edge
through its second (end) surface vertex. -/
def svGvPidSnd (ps : PartialStore) (hepid : Pid) : Option Pid :=
  (lookupId hepid ps.half_edges).bind fun w =>
    (lookupId w.partialValue.surface_vertices.2 ps.surface_vertices).bind
      fun wsv => some wsv.partialValue.global_form

/-! ## Build lemmas: memoization and invariants threaded through build -/

/-- The built handle memoized at a staged global-vertex instance, if any. -/
def gvFull (ps : PartialStore) (pid : Pid) : Option (Handle GlobalVertex) :=
  (lookupId pid ps.global_vertices).bind fun w => w.full

/-- The built handle memoized at a staged surface-vertex instance. -/
def svFull (ps : PartialStore) (pid : Pid) :
    Option (Handle SurfaceVertex) :=
  (lookupId pid ps.surface_vertices).bind fun w => w.full

/-- The built handle memoized at a staged half-edge instance. -/
def heFull (ps : PartialStore) (pid : Pid) : Option (Handle HalfEdge) :=
  (lookupId pid ps.half_edges).bind fun w => w.full

/-- Build monotonicity: every wrapper survives, with its staged value
unchanged and its memoized handle only ever set, never changed. -/
structure BLe (ps ps' : PartialStore) : Prop where
  cu : ∀ pid w, lookupId pid ps.curves = some w →
    ∃ w', lookupId pid ps'.curves = some w'
      ∧ w'.partialValue = w.partialValue
      ∧ ∀ hh, w.full = some hh → w'.full = some hh
  gv : ∀ pid w, lookupId pid ps.global_vertices = some w →
    ∃ w', lookupId pid ps'.global_vertices = some w'
      ∧ w'.partialValue = w.partialValue
      ∧ ∀ hh, w.full = some hh → w'.full = some hh
  sv : ∀ pid w, lookupId pid ps.surface_vertices = some w →
    ∃ w', lookupId pid ps'.surface_vertices = some w'
      ∧ w'.partialValue = w.partialValue
      ∧ ∀ hh, w.full = some hh → w'.full = some hh
  ge : ∀ pid w, lookupId pid ps.global_edges = some w →
    ∃ w', lookupId pid ps'.global_edges = some w'
      ∧ w'.partialValue = w.partialValue
      ∧ ∀ hh, w.full = some hh → w'.full = some hh
  he : ∀ pid w, lookupId pid ps.half_edges = some w →
    ∃ w', lookupId pid ps'.half_edges = some w'
      ∧ w'.partialValue = w.partialValue
      ∧ ∀ hh, w.full = some hh → w'.full = some hh

lemma BLe.refl (ps : PartialStore) : BLe ps ps :=
  ⟨fun _ w h => ⟨w, h, rfl, fun _ hh => hh⟩,
    fun _ w h => ⟨w, h, rfl, fun _ hh => hh⟩,
    fun _ w h => ⟨w, h, rfl, fun _ hh => hh⟩,
    fun _ w h => ⟨w, h, rfl, fun _ hh => hh⟩,
    fun _ w h => ⟨w, h, rfl, fun _ hh => hh⟩⟩

lemma BLe.btrans {a b c : PartialStore} (h1 : BLe a b) (h2 : BLe b c) :
    BLe a c := by
  refine ⟨?_, ?_, ?_, ?_, ?_⟩ <;> intro pid w hw
  · obtain ⟨w1, hw1, hp1, hf1⟩ := h1.cu pid w hw
    obtain ⟨w2, hw2, hp2, hf2⟩ := h2.cu pid w1 hw1
    exact ⟨w2, hw2, hp2.trans hp1, fun hh h => hf2 hh (hf1 hh h)⟩
  · obtain ⟨w1, hw1, hp1, hf1⟩ := h1.gv pid w hw
    obtain ⟨w2, hw2, hp2, hf2⟩ := h2.gv pid w1 hw1
    exact ⟨w2, hw2, hp2.trans hp1, fun hh h => hf2 hh (hf1 hh h)⟩
  · obtain ⟨w1, hw1, hp1, hf1⟩ := h1.sv pid w hw
    obtain ⟨w2, hw2, hp2, hf2⟩ := h2.sv pid w1 hw1
    exact ⟨w2, hw2, hp2.trans hp1, fun hh h => hf2 hh (hf1 hh h)⟩
  · obtain ⟨w1, hw1, hp1, hf1⟩ := h1.ge pid w hw
    obtain ⟨w2, hw2, hp2, hf2⟩ := h2.ge pid w1 hw1
    exact ⟨w2, hw2, hp2.trans hp1, fun hh h => hf2 hh (hf1 hh h)⟩
  · obtain ⟨w1, hw1, hp1, hf1⟩ := h1.he pid w hw
    obtain ⟨w2, hw2, hp2, hf2⟩ := h2.he pid w1 hw1
    exact ⟨w2, hw2, hp2.trans hp1, fun hh h => hf2 hh (hf1 hh h)⟩

lemma gvFull_mono {ps ps' : PartialStore} (hle : BLe ps ps') {pid : Pid}
    {h : Handle GlobalVertex} (hf : gvFull ps pid = some h) :
    gvFull ps' pid = some h := by
  unfold gvFull at hf ⊢
  rcases hl : lookupId pid ps.global_vertices with _ | w
  · rw [hl] at hf; cases hf
  · rw [hl] at hf
    obtain ⟨w', hw', _, hfu⟩ := hle.gv pid w hl
    rw [hw']
    exact hfu h hf

lemma svFull_mono {ps ps' : PartialStore} (hle : BLe ps ps') {pid : Pid}
    {h : Handle SurfaceVertex} (hf : svFull ps pid = some h) :
    svFull ps' pid = some h := by
  unfold svFull at hf ⊢
  rcases hl : lookupId pid ps.surface_vertices with _ | w
  · rw [hl] at hf; cases hf
  · rw [hl] at hf
    obtain ⟨w', hw', _, hfu⟩ := hle.sv pid w hl
    rw [hw']
    exact hfu h hf

lemma heFull_mono {ps ps' : PartialStore} (hle : BLe ps ps') {pid : Pid}
    {h : Handle HalfEdge} (hf : heFull ps pid = some h) :
    heFull ps' pid = some h := by
  unfold heFull at hf ⊢
  rcases hl : lookupId pid ps.half_edges with _ | w
  · rw [hl] at hf; cases hf
  · rw [hl] at hf
    obtain ⟨w', hw', _, hfu⟩ := hle.he pid w hl
    rw [hw']
    exact hfu h hf

/-- The invariants a build maintains: memoized handles are consistent with
the memoized handles of the children the staged value references, and staged
references point at live instances. -/
structure BuildOk (ps : PartialStore) : Prop where
  binvSV : ∀ pid w hh, lookupId pid ps.surface_vertices = some w →
    w.full = some hh →
    gvFull ps w.partialValue.global_form = some hh.value.global_form
  binvHE : ∀ pid w hh, lookupId pid ps.half_edges = some w →
    w.full = some hh →
    svFull ps w.partialValue.surface_vertices.1
        = some hh.value.surface_vertices.1
      ∧ svFull ps w.partialValue.surface_vertices.2
        = some hh.value.surface_vertices.2
  lsv : plinkSV ps
  lhe : plinkHE ps

lemma gvWrapperAt_eq {ps : PartialStore} {pid : Pid}
    {w : PartialWrapper PartialGlobalVertex GlobalVertex}
    (hl : lookupId pid ps.global_vertices = some w) :
    gvWrapperAt ps pid = w := by
  unfold gvWrapperAt
  rw [hl]
  rfl

lemma svWrapperAt_eq {ps : PartialStore} {pid : Pid}
    {w : PartialWrapper PartialSurfaceVertex SurfaceVertex}
    (hl : lookupId pid ps.surface_vertices = some w) :
    svWrapperAt ps pid = w := by
  unfold svWrapperAt
  rw [hl]
  rfl

lemma heWrapperAt_eq {ps : PartialStore} {pid : Pid}
    {w : PartialWrapper PartialHalfEdge HalfEdge}
    (hl : lookupId pid ps.half_edges = some w) :
    heWrapperAt ps pid = w := by
  unfold heWrapperAt
  rw [hl]
  rfl

lemma setFullGV_BLe (ps : PartialStore) (pid : Pid)
    (h : Handle GlobalVertex) (hf : (gvWrapperAt ps pid).full = none) :
    BLe ps (setFullGV ps pid h) := by
  refine ⟨?_, ?_, ?_, ?_, ?_⟩ <;> intro p w hw
  · exact ⟨w, hw, rfl, fun _ hh => hh⟩
  · by_cases hp : p = pid
    · subst hp
      refine ⟨{ w with full := some h }, ?_, rfl, ?_⟩
      · show lookupId p (updateAssoc p _ ps.global_vertices) = _
        rw [updateAssoc_lookup, if_pos rfl, hw]
        rfl
      · intro hh hhf
        rw [gvWrapperAt_eq hw] at hf
        exact Option.noConfusion (hf.symm.trans hhf)
    · refine ⟨w, ?_, rfl, fun _ hh => hh⟩
      show lookupId p (updateAssoc pid _ ps.global_vertices) = _
      rw [updateAssoc_lookup, if_neg hp]
      exact hw
  · exact ⟨w, hw, rfl, fun _ hh => hh⟩
  · exact ⟨w, hw, rfl, fun _ hh => hh⟩
  · exact ⟨w, hw, rfl, fun _ hh => hh⟩

lemma setFullCU_BLe (ps : PartialStore) (pid : Pid) (h : Handle Curve)
    (hf : (cuWrapperAt ps pid).full = none) :
    BLe ps (setFullCU ps pid h) := by
  refine ⟨?_, ?_, ?_, ?_, ?_⟩ <;> intro p w hw
  · by_cases hp : p = pid
    · subst hp
      refine ⟨{ w with full := some h }, ?_, rfl, ?_⟩
      · show lookupId p (updateAssoc p _ ps.curves) = _
        rw [updateAssoc_lookup, if_pos rfl, hw]
        rfl
      · intro hh hhf
        have hwe : cuWrapperAt ps p = w := by
          unfold cuWrapperAt
          rw [hw]
          rfl
        rw [hwe] at hf
        exact Option.noConfusion (hf.symm.trans hhf)
    · refine ⟨w, ?_, rfl, fun _ hh => hh⟩
      show lookupId p (updateAssoc pid _ ps.curves) = _
      rw [updateAssoc_lookup, if_neg hp]
      exact hw
  · exact ⟨w, hw, rfl, fun _ hh => hh⟩
  · exact ⟨w, hw, rfl, fun _ hh => hh⟩
  · exact ⟨w, hw, rfl, fun _ hh => hh⟩
  · exact ⟨w, hw, rfl, fun _ hh => hh⟩

lemma setFullSV_BLe (ps : PartialStore) (pid : Pid)
    (h : Handle SurfaceVertex) (hf : (svWrapperAt ps pid).full = none) :
    BLe ps (setFullSV ps pid h) := by
  refine ⟨?_, ?_, ?_, ?_, ?_⟩ <;> intro p w hw
  · exact ⟨w, hw, rfl, fun _ hh => hh⟩
  · exact ⟨w, hw, rfl, fun _ hh => hh⟩
  · by_cases hp : p = pid
    · subst hp
      refine ⟨{ w with full := some h }, ?_, rfl, ?_⟩
      · show lookupId p (updateAssoc p _ ps.surface_vertices) = _
        rw [updateAssoc_lookup, if_pos rfl, hw]
        rfl
      · intro hh hhf
        rw [svWrapperAt_eq hw] at hf
        exact Option.noConfusion (hf.symm.trans hhf)
    · refine ⟨w, ?_, rfl, fun _ hh => hh⟩
      show lookupId p (updateAssoc pid _ ps.surface_vertices) = _
      rw [updateAssoc_lookup, if_neg hp]
      exact hw
  · exact ⟨w, hw, rfl, fun _ hh => hh⟩
  · exact ⟨w, hw, rfl, fun _ hh => hh⟩

lemma setFullGE_BLe (ps : PartialStore) (pid : Pid)
    (h : Handle GlobalEdge) (hf : (geWrapperAt ps pid).full = none) :
    BLe ps (setFullGE ps pid h) := by
  refine ⟨?_, ?_, ?_, ?_, ?_⟩ <;> intro p w hw
  · exact ⟨w, hw, rfl, fun _ hh => hh⟩
  · exact ⟨w, hw, rfl, fun _ hh => hh⟩
  · exact ⟨w, hw, rfl, fun _ hh => hh⟩
  · by_cases hp : p = pid
    · subst hp
      refine ⟨{ w with full := some h }, ?_, rfl, ?_⟩
      · show lookupId p (updateAssoc p _ ps.global_edges) = _
        rw [updateAssoc_lookup, if_pos rfl, hw]
        rfl
      · intro hh hhf
        have hwe : geWrapperAt ps p = w := by
          unfold geWrapperAt
          rw [hw]
          rfl
        rw [hwe] at hf
        exact Option.noConfusion (hf.symm.trans hhf)
    · refine ⟨w, ?_, rfl, fun _ hh => hh⟩
      show lookupId p (updateAssoc pid _ ps.global_edges) = _
      rw [updateAssoc_lookup, if_neg hp]
      exact hw
  · exact ⟨w, hw, rfl, fun _ hh => hh⟩

lemma setFullHE_BLe (ps : PartialStore) (pid : Pid) (h : Handle HalfEdge)
    (hf : (heWrapperAt ps pid).full = none) :
    BLe ps (setFullHE ps pid h) := by
  refine ⟨?_, ?_, ?_, ?_, ?_⟩ <;> intro p w hw
  · exact ⟨w, hw, rfl, fun _ hh => hh⟩
  · exact ⟨w, hw, rfl, fun _ hh => hh⟩
  · exact ⟨w, hw, rfl, fun _ hh => hh⟩
  · exact ⟨w, hw, rfl, fun _ hh => hh⟩
  · by_cases hp : p = pid
    · subst hp
      refine ⟨{ w with full := some h }, ?_, rfl, ?_⟩
      · show lookupId p (updateAssoc p _ ps.half_edges) = _
        rw [updateAssoc_lookup, if_pos rfl, hw]
        rfl
      · intro hh hhf
        rw [heWrapperAt_eq hw] at hf
        exact Option.noConfusion (hf.symm.trans hhf)
    · refine ⟨w, ?_, rfl, fun _ hh => hh⟩
      show lookupId p (updateAssoc pid _ ps.half_edges) = _
      rw [updateAssoc_lookup, if_neg hp]
      exact hw

lemma buildPGV_hit {pid : Pid} {s : BState} {h : Handle GlobalVertex}
    (hf : (gvWrapperAt s.store pid).full = some h) :
    buildPGV pid s = (h, s) := by
  unfold buildPGV
  rw [hf]

lemma buildPGV_miss_store {pid : Pid} {s : BState}
    (hf : (gvWrapperAt s.store pid).full = none) :
    (buildPGV pid s).2.store = setFullGV s.store pid (buildPGV pid s).1 := by
  unfold buildPGV
  rw [hf]

lemma buildPGV_spec (pid : Pid) (s : BState) (hok : BuildOk s.store) :
    BLe s.store (buildPGV pid s).2.store
      ∧ BuildOk (buildPGV pid s).2.store
      ∧ ((∃ w, lookupId pid s.store.global_vertices = some w) →
          gvFull (buildPGV pid s).2.store pid = some (buildPGV pid s).1) := by
  rcases hf : (gvWrapperAt s.store pid).full with _ | h
  · have hst := buildPGV_miss_store hf
    rw [hst]
    have hble := setFullGV_BLe s.store pid (buildPGV pid s).1 hf
    refine ⟨hble, ⟨?_, hok.binvHE, ?_, hok.lhe⟩, ?_⟩
    · intro p w hh hw hfu
      exact gvFull_mono hble (hok.binvSV p w hh hw hfu)
    · intro p w hw
      obtain ⟨wg, hwg⟩ := hok.lsv p w hw
      obtain ⟨wg', hwg', _, _⟩ := hble.gv _ wg hwg
      exact ⟨wg', hwg'⟩
    · rintro ⟨w, hw⟩
      unfold gvFull
      show (lookupId pid (updateAssoc pid _ s.store.global_vertices)).bind
        _ = _
      rw [updateAssoc_lookup, if_pos rfl, hw]
      rfl
  · rw [buildPGV_hit hf]
    refine ⟨BLe.refl _, hok, ?_⟩
    rintro ⟨w, hw⟩
    unfold gvFull
    rw [hw]
    show w.full = some h
    rw [← gvWrapperAt_eq hw]
    exact hf

lemma buildPCurve_hit {pid : Pid} {s : BState} {h : Handle Curve}
    (hf : (cuWrapperAt s.store pid).full = some h) :
    buildPCurve pid s = (h, s) := by
  unfold buildPCurve
  rw [hf]

lemma buildPCurve_miss_store {pid : Pid} {s : BState}
    (hf : (cuWrapperAt s.store pid).full = none) :
    (buildPCurve pid s).2.store
      = setFullCU s.store pid (buildPCurve pid s).1 := by
  unfold buildPCurve
  rw [hf]

lemma buildPCurve_spec (pid : Pid) (s : BState) (hok : BuildOk s.store) :
    BLe s.store (buildPCurve pid s).2.store
      ∧ BuildOk (buildPCurve pid s).2.store := by
  rcases hf : (cuWrapperAt s.store pid).full with _ | h
  · have hst := buildPCurve_miss_store hf
    rw [hst]
    have hble := setFullCU_BLe s.store pid (buildPCurve pid s).1 hf
    exact ⟨hble, hok.binvSV, hok.binvHE, hok.lsv, hok.lhe⟩
  · rw [buildPCurve_hit hf]
    exact ⟨BLe.refl _, hok⟩

/-- Submaps `buildPGV` does not touch. -/
lemma buildPGV_pres (pid : Pid) (s : BState) :
    ((buildPGV pid s).2.store.curves = s.store.curves)
      ∧ ((buildPGV pid s).2.store.surface_vertices
          = s.store.surface_vertices)
      ∧ ((buildPGV pid s).2.store.global_edges = s.store.global_edges)
      ∧ ((buildPGV pid s).2.store.half_edges = s.store.half_edges) := by
  rcases hf : (gvWrapperAt s.store pid).full with _ | h
  · rw [buildPGV_miss_store hf]
    exact ⟨rfl, rfl, rfl, rfl⟩
  · rw [buildPGV_hit hf]
    exact ⟨rfl, rfl, rfl, rfl⟩

/-- Submaps `buildPCurve` does not touch. -/
lemma buildPCurve_pres (pid : Pid) (s : BState) :
    ((buildPCurve pid s).2.store.global_vertices
        = s.store.global_vertices)
      ∧ ((buildPCurve pid s).2.store.surface_vertices
          = s.store.surface_vertices)
      ∧ ((buildPCurve pid s).2.store.global_edges = s.store.global_edges)
      ∧ ((buildPCurve pid s).2.store.half_edges = s.store.half_edges) := by
  rcases hf : (cuWrapperAt s.store pid).full with _ | h
  · rw [buildPCurve_miss_store hf]
    exact ⟨rfl, rfl, rfl, rfl⟩
  · rw [buildPCurve_hit hf]
    exact ⟨rfl, rfl, rfl, rfl⟩

lemma buildPSV_hit {pid : Pid} {s : BState} {h : Handle SurfaceVertex}
    (hf : (svWrapperAt s.store pid).full = some h) :
    buildPSV pid s = (h, s) := by
  unfold buildPSV
  rw [hf]

lemma buildPSV_miss_store {pid : Pid} {s : BState}
    (hf : (svWrapperAt s.store pid).full = none) :
    (buildPSV pid s).2.store
      = setFullSV
          (buildPGV (svWrapperAt s.store pid).partialValue.global_form
            s).2.store
          pid (buildPSV pid s).1 := by
  unfold buildPSV
  rw [hf]

lemma buildPSV_miss_gf {pid : Pid} {s : BState}
    (hf : (svWrapperAt s.store pid).full = none) :
    (buildPSV pid s).1.value.global_form
      = (buildPGV (svWrapperAt s.store pid).partialValue.global_form
          s).1 := by
  unfold buildPSV
  rw [hf]
  rfl

lemma svWrapperAt_congr {ps ps' : PartialStore}
    (h : ps.surface_vertices = ps'.surface_vertices) (pid : Pid) :
    svWrapperAt ps pid = svWrapperAt ps' pid := by
  unfold svWrapperAt
  rw [h]

lemma heWrapperAt_congr {ps ps' : PartialStore}
    (h : ps.half_edges = ps'.half_edges) (pid : Pid) :
    heWrapperAt ps pid = heWrapperAt ps' pid := by
  unfold heWrapperAt
  rw [h]

lemma geWrapperAt_congr {ps ps' : PartialStore}
    (h : ps.global_edges = ps'.global_edges) (pid : Pid) :
    geWrapperAt ps pid = geWrapperAt ps' pid := by
  unfold geWrapperAt
  rw [h]

lemma cuWrapperAt_congr {ps ps' : PartialStore}
    (h : ps.curves = ps'.curves) (pid : Pid) :
    cuWrapperAt ps pid = cuWrapperAt ps' pid := by
  unfold cuWrapperAt
  rw [h]

lemma buildPSV_spec (pid : Pid) (s : BState) (hok : BuildOk s.store) :
    BLe s.store (buildPSV pid s).2.store
      ∧ BuildOk (buildPSV pid s).2.store
      ∧ ((∃ w, lookupId pid s.store.surface_vertices = some w) →
          svFull (buildPSV pid s).2.store pid = some (buildPSV pid s).1) := by
  obtain ⟨w0, hw0⟩ : ∃ w0, svWrapperAt s.store pid = w0 := ⟨_, rfl⟩
  rcases hf : w0.full with _ | h
  · have hf0 : (svWrapperAt s.store pid).full = none := by rw [hw0]; exact hf
    have hst := buildPSV_miss_store hf0
    have hgf := buildPSV_miss_gf hf0
    rw [hw0] at hst hgf
    obtain ⟨hbleg, hokg, hcog⟩ := buildPGV_spec
      w0.partialValue.global_form s hok
    have hpres := buildPGV_pres w0.partialValue.global_form s
    have hf2 : (svWrapperAt
        (buildPGV w0.partialValue.global_form s).2.store pid).full
        = none := by
      rw [svWrapperAt_congr hpres.2.1 pid, hw0]
      exact hf
    rw [hst]
    have hbleset := setFullSV_BLe _ pid (buildPSV pid s).1 hf2
    have hble := BLe.btrans hbleg hbleset
    refine ⟨hble, ⟨?_, ?_, ?_, ?_⟩, ?_⟩
    · intro p w' hh hw' hfu
      have hw'2 : lookupId p (updateAssoc pid
          (fun w => { w with full := some (buildPSV pid s).1 })
          (buildPGV w0.partialValue.global_form
            s).2.store.surface_vertices) = some w' := hw'
      rw [updateAssoc_lookup, hpres.2.1] at hw'2
      by_cases hp : p = pid
      · rw [if_pos hp] at hw'2
        rcases hl : lookupId pid s.store.surface_vertices with _ | w1
        · rw [hl] at hw'2; cases hw'2
        · rw [hl] at hw'2
          have hw1 : w0 = w1 := hw0.symm.trans (svWrapperAt_eq hl)
          subst hw1
          obtain rfl := (Option.some.inj hw'2).symm
          have hfu' : (buildPSV pid s).1 = hh := Option.some.inj hfu
          subst hfu'
          show gvFull _ w0.partialValue.global_form = _
          rw [hgf]
          exact gvFull_mono hbleset (hcog (hok.lsv pid w0 hl))
      · rw [if_neg hp] at hw'2
        exact gvFull_mono hble (hok.binvSV p w' hh hw'2 hfu)
    · intro p w' hh hw' hfu
      have hw's : lookupId p s.store.half_edges = some w' := by
        rw [← hpres.2.2.2]
        exact hw'
      obtain ⟨h1, h2⟩ := hok.binvHE p w' hh hw's hfu
      exact ⟨svFull_mono hble h1, svFull_mono hble h2⟩
    · intro p w' hw'
      have hw'2 : lookupId p (updateAssoc pid
          (fun w => { w with full := some (buildPSV pid s).1 })
          (buildPGV w0.partialValue.global_form
            s).2.store.surface_vertices) = some w' := hw'
      rw [updateAssoc_lookup, hpres.2.1] at hw'2
      by_cases hp : p = pid
      · rw [if_pos hp] at hw'2
        rcases hl : lookupId pid s.store.surface_vertices with _ | w1
        · rw [hl] at hw'2; cases hw'2
        · rw [hl] at hw'2
          obtain rfl := (Option.some.inj hw'2).symm
          obtain ⟨wg, hwg⟩ := hok.lsv pid w1 hl
          obtain ⟨wg', hwg', _, _⟩ := hble.gv _ wg hwg
          exact ⟨wg', hwg'⟩
      · rw [if_neg hp] at hw'2
        obtain ⟨wg, hwg⟩ := hok.lsv p w' hw'2
        obtain ⟨wg', hwg', _, _⟩ := hble.gv _ wg hwg
        exact ⟨wg', hwg'⟩
    · intro p w' hw'
      have hw's : lookupId p s.store.half_edges = some w' := by
        rw [← hpres.2.2.2]
        exact hw'
      obtain ⟨⟨w1, hw1⟩, ⟨w2, hw2⟩⟩ := hok.lhe p w' hw's
      obtain ⟨w1', hw1', _, _⟩ := hble.sv _ w1 hw1
      obtain ⟨w2', hw2', _, _⟩ := hble.sv _ w2 hw2
      exact ⟨⟨w1', hw1'⟩, ⟨w2', hw2'⟩⟩
    · rintro ⟨w, hw⟩
      unfold svFull
      show (lookupId pid (updateAssoc pid _ (buildPGV
        w0.partialValue.global_form s).2.store.surface_vertices)).bind
          _ = _
      rw [updateAssoc_lookup, if_pos rfl, hpres.2.1, hw]
      rfl
  · have hf0 : (svWrapperAt s.store pid).full = some h := by
      rw [hw0]; exact hf
    rw [buildPSV_hit hf0]
    refine ⟨BLe.refl _, hok, ?_⟩
    rintro ⟨w, hw⟩
    unfold svFull
    rw [hw]
    show w.full = some h
    rw [← svWrapperAt_eq hw]
    exact hf0

/-- Submaps `buildPSV` does not touch. -/
lemma buildPSV_pres (pid : Pid) (s : BState) :
    ((buildPSV pid s).2.store.curves = s.store.curves)
      ∧ ((buildPSV pid s).2.store.global_edges = s.store.global_edges)
      ∧ ((buildPSV pid s).2.store.half_edges = s.store.half_edges) := by
  rcases hf : (svWrapperAt s.store pid).full with _ | h
  · rw [buildPSV_miss_store hf]
    have hp := buildPGV_pres
      (svWrapperAt s.store pid).partialValue.global_form s
    exact ⟨hp.1, hp.2.2.1, hp.2.2.2⟩
  · rw [buildPSV_hit hf]
    exact ⟨rfl, rfl, rfl⟩

lemma buildPGE_hit {pid : Pid} {s : BState} {h : Handle GlobalEdge}
    (hf : (geWrapperAt s.store pid).full = some h) :
    buildPGE pid s = (h, s) := by
  unfold buildPGE
  rw [hf]

lemma buildPGE_miss_store {pid : Pid} {s : BState}
    (hf : (geWrapperAt s.store pid).full = none) :
    (buildPGE pid s).2.store
      = setFullGE
          (buildPGV (geWrapperAt s.store pid).partialValue.vertices.2
            (buildPGV (geWrapperAt s.store pid).partialValue.vertices.1
              s).2).2.store
          pid (buildPGE pid s).1 := by
  unfold buildPGE
  rw [hf]

lemma buildPGE_spec (pid : Pid) (s : BState) (hok : BuildOk s.store) :
    BLe s.store (buildPGE pid s).2.store
      ∧ BuildOk (buildPGE pid s).2.store := by
  obtain ⟨w0, hw0⟩ : ∃ w0, geWrapperAt s.store pid = w0 := ⟨_, rfl⟩
  rcases hf : w0.full with _ | h
  · have hf0 : (geWrapperAt s.store pid).full = none := by
      rw [hw0]; exact hf
    have hst := buildPGE_miss_store hf0
    rw [hw0] at hst
    obtain ⟨hbleA, hokA, _⟩ := buildPGV_spec
      w0.partialValue.vertices.1 s hok
    obtain ⟨hbleB, hokB, _⟩ := buildPGV_spec w0.partialValue.vertices.2
      (buildPGV w0.partialValue.vertices.1 s).2 hokA
    have hpA := buildPGV_pres w0.partialValue.vertices.1 s
    have hpB := buildPGV_pres w0.partialValue.vertices.2
      (buildPGV w0.partialValue.vertices.1 s).2
    have hfge : (geWrapperAt
        (buildPGV w0.partialValue.vertices.2
          (buildPGV w0.partialValue.vertices.1 s).2).2.store pid).full
        = none := by
      rw [geWrapperAt_congr hpB.2.2.1, geWrapperAt_congr hpA.2.2.1, hw0]
      exact hf
    rw [hst]
    have hbleset := setFullGE_BLe _ pid (buildPGE pid s).1 hfge
    have hble := BLe.btrans (BLe.btrans hbleA hbleB) hbleset
    refine ⟨hble, ?_, ?_, ?_, ?_⟩
    · intro p w hh hw hfu
      exact gvFull_mono hbleset (hokB.binvSV p w hh hw hfu)
    · intro p w hh hw hfu
      obtain ⟨h1, h2⟩ := hokB.binvHE p w hh hw hfu
      exact ⟨svFull_mono hbleset h1, svFull_mono hbleset h2⟩
    · intro p w hw
      obtain ⟨wg, hwg⟩ := hokB.lsv p w hw
      obtain ⟨wg', hwg', _, _⟩ := hbleset.gv _ wg hwg
      exact ⟨wg', hwg'⟩
    · intro p w hw
      obtain ⟨⟨w1, hw1⟩, ⟨w2, hw2⟩⟩ := hokB.lhe p w hw
      obtain ⟨w1', hw1', _, _⟩ := hbleset.sv _ w1 hw1
      obtain ⟨w2', hw2', _, _⟩ := hbleset.sv _ w2 hw2
      exact ⟨⟨w1', hw1'⟩, ⟨w2', hw2'⟩⟩
  · have hf0 : (geWrapperAt s.store pid).full = some h := by
      rw [hw0]; exact hf
    rw [buildPGE_hit hf0]
    exact ⟨BLe.refl _, hok⟩

/-- Submaps `buildPGE` does not touch. -/
lemma buildPGE_pres (pid : Pid) (s : BState) :
    ((buildPGE pid s).2.store.curves = s.store.curves)
      ∧ ((buildPGE pid s).2.store.surface_vertices
          = s.store.surface_vertices)
      ∧ ((buildPGE pid s).2.store.half_edges = s.store.half_edges) := by
  rcases hf : (geWrapperAt s.store pid).full with _ | h
  · rw [buildPGE_miss_store hf]
    have hpA := buildPGV_pres
      (geWrapperAt s.store pid).partialValue.vertices.1 s
    have hpB := buildPGV_pres
      (geWrapperAt s.store pid).partialValue.vertices.2
      (buildPGV (geWrapperAt s.store pid).partialValue.vertices.1 s).2
    exact ⟨hpB.1.trans hpA.1, hpB.2.1.trans hpA.2.1,
      hpB.2.2.2.trans hpA.2.2.2⟩
  · rw [buildPGE_hit hf]
    exact ⟨rfl, rfl, rfl⟩

lemma buildPHE_hit {pid : Pid} {s : BState} {h : Handle HalfEdge}
    (hf : (heWrapperAt s.store pid).full = some h) :
    buildPHE pid s = (h, s) := by
  unfold buildPHE
  rw [hf]

lemma buildPHE_miss_store {pid : Pid} {s : BState}
    (hf : (heWrapperAt s.store pid).full = none) :
    (buildPHE pid s).2.store
      = setFullHE
          (buildPGE (heWrapperAt s.store pid).partialValue.global_form
            (buildPSV
              (heWrapperAt s.store pid).partialValue.surface_vertices.2
              (buildPSV
                (heWrapperAt s.store pid).partialValue.surface_vertices.1
                (buildPCurve (heWrapperAt s.store pid).partialValue.curve
                  s).2).2).2).2.store
          pid (buildPHE pid s).1 := by
  unfold buildPHE
  rw [hf]

lemma buildPHE_miss_sv {pid : Pid} {s : BState}
    (hf : (heWrapperAt s.store pid).full = none) :
    (buildPHE pid s).1.value.surface_vertices
      = ((buildPSV
            (heWrapperAt s.store pid).partialValue.surface_vertices.1
            (buildPCurve (heWrapperAt s.store pid).partialValue.curve
              s).2).1,
        (buildPSV
          (heWrapperAt s.store pid).partialValue.surface_vertices.2
          (buildPSV
            (heWrapperAt s.store pid).partialValue.surface_vertices.1
            (buildPCurve (heWrapperAt s.store pid).partialValue.curve
              s).2).2).1) := by
  unfold buildPHE
  rw [hf]
  rfl

lemma buildPHE_spec (pid : Pid) (s : BState) (hok : BuildOk s.store) :
    BLe s.store (buildPHE pid s).2.store
      ∧ BuildOk (buildPHE pid s).2.store
      ∧ ((∃ w, lookupId pid s.store.half_edges = some w) →
          heFull (buildPHE pid s).2.store pid = some (buildPHE pid s).1) := by
  obtain ⟨w0, hw0⟩ : ∃ w0, heWrapperAt s.store pid = w0 := ⟨_, rfl⟩
  rcases hf : w0.full with _ | h
  · have hf0 : (heWrapperAt s.store pid).full = none := by
      rw [hw0]; exact hf
    have hst := buildPHE_miss_store hf0
    have hsv := buildPHE_miss_sv hf0
    rw [hw0] at hst hsv
    obtain ⟨hbleC, hokC⟩ := buildPCurve_spec w0.partialValue.curve s hok
    obtain ⟨hbleV1, hokV1, hcoV1⟩ := buildPSV_spec
      w0.partialValue.surface_vertices.1
      (buildPCurve w0.partialValue.curve s).2 hokC
    obtain ⟨hbleV2, hokV2, hcoV2⟩ := buildPSV_spec
      w0.partialValue.surface_vertices.2
      (buildPSV w0.partialValue.surface_vertices.1
        (buildPCurve w0.partialValue.curve s).2).2 hokV1
    obtain ⟨hbleG, hokG⟩ := buildPGE_spec w0.partialValue.global_form
      (buildPSV w0.partialValue.surface_vertices.2
        (buildPSV w0.partialValue.surface_vertices.1
          (buildPCurve w0.partialValue.curve s).2).2).2 hokV2
    have hpC := buildPCurve_pres w0.partialValue.curve s
    have hpV1 := buildPSV_pres w0.partialValue.surface_vertices.1
      (buildPCurve w0.partialValue.curve s).2
    have hpV2 := buildPSV_pres w0.partialValue.surface_vertices.2
      (buildPSV w0.partialValue.surface_vertices.1
        (buildPCurve w0.partialValue.curve s).2).2
    have hpG := buildPGE_pres w0.partialValue.global_form
      (buildPSV w0.partialValue.surface_vertices.2
        (buildPSV w0.partialValue.surface_vertices.1
          (buildPCurve w0.partialValue.curve s).2).2).2
    have hhe : (buildPGE w0.partialValue.global_form
        (buildPSV w0.partialValue.surface_vertices.2
          (buildPSV w0.partialValue.surface_vertices.1
            (buildPCurve w0.partialValue.curve
              s).2).2).2).2.store.half_edges
        = s.store.half_edges :=
      hpG.2.2.trans (hpV2.2.2.trans (hpV1.2.2.trans hpC.2.2.2))
    have hfhe : (heWrapperAt (buildPGE w0.partialValue.global_form
        (buildPSV w0.partialValue.surface_vertices.2
          (buildPSV w0.partialValue.surface_vertices.1
            (buildPCurve w0.partialValue.curve s).2).2).2).2.store
          pid).full = none := by
      rw [heWrapperAt_congr hhe, hw0]
      exact hf
    rw [hst]
    have hbleset := setFullHE_BLe _ pid (buildPHE pid s).1 hfhe
    have hble := BLe.btrans hbleC (BLe.btrans hbleV1 (BLe.btrans hbleV2
      (BLe.btrans hbleG hbleset)))
    refine ⟨hble, ⟨?_, ?_, ?_, ?_⟩, ?_⟩
    · intro p w hh hw hfu
      exact gvFull_mono hbleset (hokG.binvSV p w hh hw hfu)
    · intro p w' hh hw' hfu
      have hw'2 : lookupId p (updateAssoc pid
          (fun w => { w with full := some (buildPHE pid s).1 })
          (buildPGE w0.partialValue.global_form
            (buildPSV w0.partialValue.surface_vertices.2
              (buildPSV w0.partialValue.surface_vertices.1
                (buildPCurve w0.partialValue.curve
                  s).2).2).2).2.store.half_edges) = some w' := hw'
      rw [updateAssoc_lookup, hhe] at hw'2
      by_cases hp : p = pid
      · rw [if_pos hp] at hw'2
        rcases hl : lookupId pid s.store.half_edges with _ | w1
        · rw [hl] at hw'2; cases hw'2
        · rw [hl] at hw'2
          have hw1 : w0 = w1 := hw0.symm.trans (heWrapperAt_eq hl)
          subst hw1
          obtain rfl := (Option.some.inj hw'2).symm
          have hfu' : (buildPHE pid s).1 = hh := Option.some.inj hfu
          subst hfu'
          obtain ⟨⟨wsv1, hwsv1⟩, ⟨wsv2, hwsv2⟩⟩ := hok.lhe pid w0 hl
          have hex1 : ∃ w, lookupId w0.partialValue.surface_vertices.1
              (buildPCurve
                w0.partialValue.curve s).2.store.surface_vertices
              = some w := by
            rw [hpC.2.1]
            exact ⟨wsv1, hwsv1⟩
          have hc1 := hcoV1 hex1
          obtain ⟨wsv2', hwsv2', _, _⟩ :=
            (BLe.btrans hbleC hbleV1).sv _ wsv2 hwsv2
          have hc2 := hcoV2 ⟨wsv2', hwsv2'⟩
          have hc1f := svFull_mono (BLe.btrans hbleV2
            (BLe.btrans hbleG hbleset)) hc1
          have hc2f := svFull_mono (BLe.btrans hbleG hbleset) hc2
          constructor
          · show svFull _ w0.partialValue.surface_vertices.1 = _
            rw [hsv]
            exact hc1f
          · show svFull _ w0.partialValue.surface_vertices.2 = _
            rw [hsv]
            exact hc2f
      · rw [if_neg hp] at hw'2
        obtain ⟨h1, h2⟩ := hok.binvHE p w' hh hw'2 hfu
        exact ⟨svFull_mono hble h1, svFull_mono hble h2⟩
    · intro p w hw
      obtain ⟨wg, hwg⟩ := hokG.lsv p w hw
      obtain ⟨wg', hwg', _, _⟩ := hbleset.gv _ wg hwg
      exact ⟨wg', hwg'⟩
    · intro p w' hw'
      have hw'2 : lookupId p (updateAssoc pid
          (fun w => { w with full := some (buildPHE pid s).1 })
          (buildPGE w0.partialValue.global_form
            (buildPSV w0.partialValue.surface_vertices.2
              (buildPSV w0.partialValue.surface_vertices.1
                (buildPCurve w0.partialValue.curve
                  s).2).2).2).2.store.half_edges) = some w' := hw'
      rw [updateAssoc_lookup, hhe] at hw'2
      by_cases hp : p = pid
      · rw [if_pos hp] at hw'2
        rcases hl : lookupId pid s.store.half_edges with _ | w1
        · rw [hl] at hw'2; cases hw'2
        · rw [hl] at hw'2
          obtain rfl := (Option.some.inj hw'2).symm
          obtain ⟨⟨w1', hw1'⟩, ⟨w2', hw2'⟩⟩ := hok.lhe pid w1 hl
          obtain ⟨w1'', hw1'', _, _⟩ := hble.sv _ w1' hw1'
          obtain ⟨w2'', hw2'', _, _⟩ := hble.sv _ w2' hw2'
          exact ⟨⟨w1'', hw1''⟩, ⟨w2'', hw2''⟩⟩
      · rw [if_neg hp] at hw'2
        obtain ⟨⟨w1', hw1'⟩, ⟨w2', hw2'⟩⟩ := hok.lhe p w' hw'2
        obtain ⟨w1'', hw1'', _, _⟩ := hble.sv _ w1' hw1'
        obtain ⟨w2'', hw2'', _, _⟩ := hble.sv _ w2' hw2'
        exact ⟨⟨w1'', hw1''⟩, ⟨w2'', hw2''⟩⟩
    · rintro ⟨w, hw⟩
      unfold heFull
      show (lookupId pid (updateAssoc pid _
        (buildPGE w0.partialValue.global_form
          (buildPSV w0.partialValue.surface_vertices.2
            (buildPSV w0.partialValue.surface_vertices.1
              (buildPCurve w0.partialValue.curve
                s).2).2).2).2.store.half_edges)).bind _ = _
      rw [updateAssoc_lookup, if_pos rfl, hhe, hw]
      rfl
  · have hf0 : (heWrapperAt s.store pid).full = some h := by
      rw [hw0]; exact hf
    rw [buildPHE_hit hf0]
    refine ⟨BLe.refl _, hok, ?_⟩
    rintro ⟨w, hw⟩
    unfold heFull
    rw [hw]
    show w.full = some h
    rw [← heWrapperAt_eq hw]
    exact hf0

lemma fromFullHEList_length :
    ∀ (l : List (Handle HalfEdge)) (s : PState),
      (fromFullHEList l s).1.length = l.length := by
  intro l
  induction l with
  | nil => intro s; rfl
  | cons hd tl ih =>
    intro s
    show (fromFullHEList tl (fromFullHE hd s).2).1.length + 1 = _
    rw [ih]
    rfl

/-- Building a list of staged half-edges: the arena only gains memoized
handles, the invariants are preserved, and the final arena memoizes every
input instance at the corresponding output handle. -/
lemma buildPHEList_spec :
    ∀ (l : List Pid) (s : BState),
      BuildOk s.store →
      (∀ pid ∈ l, ∃ w, lookupId pid s.store.half_edges = some w) →
      BLe s.store (buildPHEList l s).2.store
        ∧ BuildOk (buildPHEList l s).2.store
        ∧ ∀ (k : Nat) (pidk : Pid) (out : Handle HalfEdge),
            l[k]? = some pidk → (buildPHEList l s).1[k]? = some out →
            heFull (buildPHEList l s).2.store pidk = some out := by
  intro l
  induction l with
  | nil =>
    intro s hok _
    refine ⟨BLe.refl _, hok, ?_⟩
    intro k p o h1 _
    simp [buildPHEList] at h1
  | cons hd tl ih =>
    intro s hok hex
    obtain ⟨hble1, hok1, hco1⟩ := buildPHE_spec hd s hok
    have hex1 : ∀ pid ∈ tl,
        ∃ w, lookupId pid (buildPHE hd s).2.store.half_edges = some w := by
      intro p hp
      obtain ⟨w, hw⟩ := hex p (by simp [hp])
      obtain ⟨w', hw', _, _⟩ := hble1.he p w hw
      exact ⟨w', hw'⟩
    have hrest := ih (buildPHE hd s).2 hok1 hex1
    have hfold : buildPHEList (hd :: tl) s
        = ((buildPHE hd s).1
            :: (buildPHEList tl (buildPHE hd s).2).1,
          (buildPHEList tl (buildPHE hd s).2).2) := rfl
    rw [hfold]
    refine ⟨BLe.btrans hble1 hrest.1, hrest.2.1, ?_⟩
    intro k p o h1 h2
    cases k with
    | zero =>
      rw [List.getElem?_cons_zero] at h1 h2
      obtain rfl := Option.some.inj h1
      obtain rfl := Option.some.inj h2
      exact heFull_mono hrest.1 (hco1 (hex hd (by simp)))
    | succ n =>
      rw [List.getElem?_cons_succ] at h1 h2
      exact hrest.2.2 n p o h1 h2

lemma updateHEB_lookup (ps : PartialStore) (pid : Pid)
    (b : Point1 × Point1) (p : Pid) :
    lookupId p (updateHalfEdgeBoundary ps pid b).half_edges
      = if p = pid
        then (lookupId pid ps.half_edges).map fun w =>
          { w with
            partialValue := { w.partialValue with boundary := some b } }
        else lookupId p ps.half_edges :=
  updateAssoc_lookup pid p _ ps.half_edges

/-- An arena entry survives the boundary mutation, with its staged
references and memoized handle unchanged. -/
lemma updateHEB_entry {ps : PartialStore} (pid : Pid)
    (b : Point1 × Point1) {p : Pid}
    {w : PartialWrapper PartialHalfEdge HalfEdge}
    (hw : lookupId p ps.half_edges = some w) :
    ∃ w', lookupId p (updateHalfEdgeBoundary ps pid b).half_edges = some w'
      ∧ w'.partialValue.surface_vertices = w.partialValue.surface_vertices
      ∧ w'.full = w.full := by
  by_cases hp : p = pid
  · subst hp
    refine ⟨{ w with
              partialValue :=
                { w.partialValue with boundary := some b } }, ?_, rfl, rfl⟩
    rw [updateHEB_lookup, if_pos rfl, hw]
    rfl
  · refine ⟨w, ?_, rfl, rfl⟩
    rw [updateHEB_lookup, if_neg hp]
    exact hw

/-- After a snapshot (all wrappers unbuilt) and the boundary mutation, the
build invariants hold. -/
lemma mutation_BuildOk (ps : PartialStore) (pid : Pid) (b : Point1 × Point1)
    (hnone : noneInvP ps) (hlsv : plinkSV ps) (hlhe : plinkHE ps) :
    BuildOk (updateHalfEdgeBoundary ps pid b) := by
  refine ⟨?_, ?_, ?_, ?_⟩
  · intro p w hh hw hfu
    have hn := hnone.2.2.1 (p, w) (lookupId_mem hw)
    exact Option.noConfusion (hn.symm.trans hfu)
  · intro p w' hh hw' hfu
    rw [updateHEB_lookup] at hw'
    by_cases hp : p = pid
    · rw [if_pos hp] at hw'
      rcases hl : lookupId pid ps.half_edges with _ | w1
      · rw [hl] at hw'; cases hw'
      · rw [hl] at hw'
        obtain rfl := (Option.some.inj hw').symm
        have hn := hnone.2.2.2.2 (pid, w1) (lookupId_mem hl)
        exact Option.noConfusion (hn.symm.trans hfu)
    · rw [if_neg hp] at hw'
      have hn := hnone.2.2.2.2 (p, w') (lookupId_mem hw')
      exact Option.noConfusion (hn.symm.trans hfu)
  · exact hlsv
  · intro p w' hw'
    rw [updateHEB_lookup] at hw'
    by_cases hp : p = pid
    · rw [if_pos hp] at hw'
      rcases hl : lookupId pid ps.half_edges with _ | w1
      · rw [hl] at hw'; cases hw'
      · rw [hl] at hw'
        obtain rfl := (Option.some.inj hw').symm
        exact hlhe pid w1 hl
    · rw [if_neg hp] at hw'
      exact hlhe p w' hw'

lemma memOfGetElemOpt {α : Type} :
    ∀ {l : List α} {n : Nat} {a : α}, l[n]? = some a → a ∈ l := by
  intro l
  induction l with
  | nil => intro n a h; simp at h
  | cons hd tl ih =>
    intro n a h
    cases n with
    | zero =>
      rw [List.getElem?_cons_zero] at h
      exact List.mem_cons.mpr (Or.inl (Option.some.inj h).symm)
    | succ m =>
      rw [List.getElem?_cons_succ] at h
      exact List.mem_cons_of_mem hd (ih h)

lemma indexOfMem {α : Type} :
    ∀ {l : List α} {a : α}, a ∈ l → ∃ n : Nat, l[n]? = some a := by
  intro l
  induction l with
  | nil => intro a h; cases h
  | cons hd tl ih =>
    intro a h
    rcases List.mem_cons.mp h with h1 | h2
    · exact ⟨0, by rw [List.getElem?_cons_zero, h1]⟩
    · obtain ⟨n, hn⟩ := ih h2
      exact ⟨n + 1, by rw [List.getElem?_cons_succ]; exact hn⟩

lemma ltLengthOfGetElemOpt {α : Type} :
    ∀ {l : List α} {n : Nat} {a : α}, l[n]? = some a → n < l.length := by
  intro l
  induction l with
  | nil => intro n a h; simp at h
  | cons hd tl ih =>
    intro n a h
    cases n with
    | zero => exact Nat.succ_pos tl.length
    | succ m =>
      rw [List.getElem?_cons_succ] at h
      exact Nat.succ_lt_succ (ih h)

lemma getElemOptTotal {α : Type} :
    ∀ {l : List α} {n : Nat}, n < l.length → ∃ a, l[n]? = some a := by
  intro l
  induction l with
  | nil => intro n h; exact absurd h (Nat.not_lt_zero n)
  | cons hd tl ih =>
    intro n h
    cases n with
    | zero => exact ⟨hd, List.getElem?_cons_zero⟩
    | succ m =>
      obtain ⟨a, ha⟩ := ih (Nat.lt_of_succ_lt_succ h)
      exact ⟨a, by rw [List.getElem?_cons_succ]; exact ha⟩

lemma svMemOfHeMem {c : Cycle} {h : Handle HalfEdge}
    (hh : h ∈ c.half_edges) :
    h.value.surface_vertices.1 ∈ svHandlesOf c
      ∧ h.value.surface_vertices.2 ∈ svHandlesOf c := by
  constructor <;>
  · unfold svHandlesOf
    refine List.mem_flatMap.mpr ⟨h, hh, ?_⟩
    simp

/-- C5: snapshotting a full cycle with `from_full` (one cache threaded
through the recursion) and then building the resulting partial graph
preserves structural sharing: a global vertex reachable both as the start
of one half-edge and as the end of another is represented by a single
shared partial instance after the snapshot, and is a single shared handle
in the rebuilt graph, even after mutating an unrelated field (a half-edge
boundary) between snapshot and build. -/
theorem partial_roundtrip_preserves_sharing
    (c : Cycle) (k : Nat) (b : Point1 × Point1) (objects : Objects)
    (i j : Nat) (hei hej : Handle HalfEdge) (pidi pidj : Pid)
    (outi outj : Handle HalfEdge)
    (hcohHE : cohIds c.half_edges)
    (hcohSV : cohIds (svHandlesOf c))
    (hgi : c.half_edges[i]? = some hei)
    (hgj : c.half_edges[j]? = some hej)
    (hshare : hei.value.surface_vertices.1.value.global_form
      = hej.value.surface_vertices.2.value.global_form)
    (hpi : (fromFullCycle c PState.empty).1.half_edges[i]? = some pidi)
    (hpj : (fromFullCycle c PState.empty).1.half_edges[j]? = some pidj)
    (hoi : (roundTrip c k b objects).1.half_edges[i]? = some outi)
    (hoj : (roundTrip c k b objects).1.half_edges[j]? = some outj) :
    (∃ P, svGvPidFst (fromFullCycle c PState.empty).2.store pidi = some P
        ∧ svGvPidSnd (fromFullCycle c PState.empty).2.store pidj = some P)
      ∧ outi.value.surface_vertices.1.value.global_form
        = outj.value.surface_vertices.2.value.global_form := by
  have hs0 : (fromFullCycle c PState.empty).1.half_edges
      = (fromFullHEList c.half_edges PState.empty).1 := rfl
  have hs2 : (fromFullCycle c PState.empty).2.store
      = (fromFullHEList c.half_edges PState.empty).2.store := rfl
  rw [hs0] at hpi hpj
  rw [hs2]
  have hmi : hei ∈ c.half_edges := memOfGetElemOpt hgi
  have hmj : hej ∈ c.half_edges := memOfGetElemOpt hgj
  obtain ⟨hsok, _hsle, hsfold⟩ := fromFullHEList_spec (svHandlesOf c)
    c.half_edges hcohHE hcohSV c.half_edges PState.empty (fun _ hh => hh)
    (fun h hh => svMemOfHeMem hh) (SnapOk.empty _ _)
  have hci := hsfold i hei pidi hgi hpi
  have hcj := hsfold j hej pidj hgj hpj
  obtain ⟨wi, hwi, hsvc1i, _⟩ := hsok.heL hei pidi hmi hci
  obtain ⟨wj, hwj, _, hsvc2j⟩ := hsok.heL hej pidj hmj hcj
  obtain ⟨wsvi, hwsvi, hgvci⟩ := hsok.svL hei.value.surface_vertices.1
    wi.partialValue.surface_vertices.1 (svMemOfHeMem hmi).1 hsvc1i
  obtain ⟨wsvj, hwsvj, hgvcj⟩ := hsok.svL hej.value.surface_vertices.2
    wj.partialValue.surface_vertices.2 (svMemOfHeMem hmj).2 hsvc2j
  have hgid : hei.value.surface_vertices.1.value.global_form.id
      = hej.value.surface_vertices.2.value.global_form.id := by rw [hshare]
  rw [hgid] at hgvci
  have hkey : wsvi.partialValue.global_form
      = wsvj.partialValue.global_form :=
    Option.some.inj (hgvci.symm.trans hgvcj)
  have hrt : (roundTrip c k b objects).1.half_edges
      = (buildPHEList (fromFullHEList c.half_edges PState.empty).1
          ⟨updateHalfEdgeBoundary
             (fromFullHEList c.half_edges PState.empty).2.store
             ((fromFullHEList c.half_edges PState.empty).1.getD k 0) b,
           objects⟩).1 := rfl
  rw [hrt] at hoi hoj
  have hexl : ∀ pid ∈ (fromFullHEList c.half_edges PState.empty).1,
      ∃ w, lookupId pid
        (updateHalfEdgeBoundary
          (fromFullHEList c.half_edges PState.empty).2.store
          ((fromFullHEList c.half_edges PState.empty).1.getD k 0)
          b).half_edges = some w := by
    intro p hp
    obtain ⟨kk, hkk⟩ := indexOfMem hp
    have hkl := ltLengthOfGetElemOpt hkk
    rw [fromFullHEList_length] at hkl
    obtain ⟨hk0, hck⟩ := getElemOptTotal hkl
    have hcache := hsfold kk hk0 p hck hkk
    obtain ⟨w, hw⟩ := hsok.csHE hk0.id p hcache
    obtain ⟨w1, hw1, _, _⟩ := updateHEB_entry
      ((fromFullHEList c.half_edges PState.empty).1.getD k 0) b hw
    exact ⟨w1, hw1⟩
  obtain ⟨hble, hbok, hbfold⟩ := buildPHEList_spec
    (fromFullHEList c.half_edges PState.empty).1
    ⟨updateHalfEdgeBoundary
       (fromFullHEList c.half_edges PState.empty).2.store
       ((fromFullHEList c.half_edges PState.empty).1.getD k 0) b,
     objects⟩
    (mutation_BuildOk _ _ _ hsok.non hsok.lsv hsok.lhe) hexl
  have hfi := hbfold i pidi outi hpi hoi
  have hfj := hbfold j pidj outj hpj hoj
  obtain ⟨wi1, hwi1, hpsvi1, _⟩ := updateHEB_entry
    ((fromFullHEList c.half_edges PState.empty).1.getD k 0) b hwi
  obtain ⟨wj1, hwj1, hpsvj1, _⟩ := updateHEB_entry
    ((fromFullHEList c.half_edges PState.empty).1.getD k 0) b hwj
  obtain ⟨wi2, hwi2, hpvi2, _⟩ := hble.he pidi wi1 hwi1
  obtain ⟨wj2, hwj2, hpvj2, _⟩ := hble.he pidj wj1 hwj1
  have hfui2 : wi2.full = some outi := by
    unfold heFull at hfi
    rw [hwi2] at hfi
    exact hfi
  have hfuj2 : wj2.full = some outj := by
    unfold heFull at hfj
    rw [hwj2] at hfj
    exact hfj
  have hsvfi := (hbok.binvHE pidi wi2 outi hwi2 hfui2).1
  have hsvfj := (hbok.binvHE pidj wj2 outj hwj2 hfuj2).2
  rw [hpvi2, hpsvi1] at hsvfi
  rw [hpvj2, hpsvj1] at hsvfj
  have hwsvi1 : lookupId wi.partialValue.surface_vertices.1
      (updateHalfEdgeBoundary
        (fromFullHEList c.half_edges PState.empty).2.store
        ((fromFullHEList c.half_edges PState.empty).1.getD k 0)
        b).surface_vertices = some wsvi := hwsvi
  have hwsvj1 : lookupId wj.partialValue.surface_vertices.2
      (updateHalfEdgeBoundary
        (fromFullHEList c.half_edges PState.empty).2.store
        ((fromFullHEList c.half_edges PState.empty).1.getD k 0)
        b).surface_vertices = some wsvj := hwsvj
  obtain ⟨wsvi2, hwsvi2, hpvsvi2, _⟩ := hble.sv _ wsvi hwsvi1
  obtain ⟨wsvj2, hwsvj2, hpvsvj2, _⟩ := hble.sv _ wsvj hwsvj1
  have hfusvi : wsvi2.full = some outi.value.surface_vertices.1 := by
    unfold svFull at hsvfi
    rw [hwsvi2] at hsvfi
    exact hsvfi
  have hfusvj : wsvj2.full = some outj.value.surface_vertices.2 := by
    unfold svFull at hsvfj
    rw [hwsvj2] at hsvfj
    exact hsvfj
  have hgvfi := hbok.binvSV _ wsvi2 _ hwsvi2 hfusvi
  have hgvfj := hbok.binvSV _ wsvj2 _ hwsvj2 hfusvj
  rw [hpvsvi2] at hgvfi
  rw [hpvsvj2, ← hkey] at hgvfj
  refine ⟨⟨wsvi.partialValue.global_form, ?_, ?_⟩,
    Option.some.inj (hgvfi.symm.trans hgvfj)⟩
  · unfold svGvPidFst
    rw [hwi]
    show (lookupId wi.partialValue.surface_vertices.1
      (fromFullHEList c.half_edges PState.empty).2.store.surface_vertices).bind
        _ = _
    rw [hwsvi]
    rfl
  · unfold svGvPidSnd
    rw [hwj]
    show (lookupId wj.partialValue.surface_vertices.2
      (fromFullHEList c.half_edges PState.empty).2.store.surface_vertices).bind
        _ = _
    rw [hwsvj]
    rw [hkey]
    rfl

theorem partial_roundtrip_preserves_sharing_witness :
    (∃ P, svGvPidFst (fromFullCycle wCyc PState.empty).2.store 6 = some P
        ∧ svGvPidSnd (fromFullCycle wCyc PState.empty).2.store 7 = some P)
      ∧ ((⟨0, HalfEdge.new wCu (5, 7) (wSv0, wSv1) wGe⟩
          : Handle HalfEdge)).value.surface_vertices.1.value.global_form
        = wHe1.value.surface_vertices.2.value.global_form :=
  partial_roundtrip_preserves_sharing wCyc 0 (5, 7) Objects.empty 0 1
    wHe0 wHe1 6 7 ⟨0, HalfEdge.new wCu (5, 7) (wSv0, wSv1) wGe⟩ wHe1
    (by
      intro h h' hh hh' hid
      simp only [wCyc, Cycle.new, List.mem_cons, List.not_mem_nil, or_false,
        List.mem_singleton] at hh hh'
      rcases hh with rfl | rfl <;> rcases hh' with rfl | rfl <;>
        first
          | rfl
          | exact absurd hid (by decide))
    (by
      intro h h' hh hh' hid
      have hsv : svHandlesOf wCyc = [wSv0, wSv1, wSv1, wSv0] := rfl
      rw [hsv] at hh hh'
      simp only [List.mem_cons, List.not_mem_nil, or_false,
        List.mem_singleton] at hh hh'
      rcases hh with rfl | rfl | rfl | rfl <;>
        rcases hh' with rfl | rfl | rfl | rfl <;>
        first
          | rfl
          | exact absurd hid (by decide))
    rfl rfl rfl rfl rfl rfl rfl

end Fornjot
